import Mathlib

/-!
Verification development for the gas-Clientes spreadsheet scripts.

The repository has two independent pipelines:
* a currency-rate reconciliation engine (`updateHistoricalValues`,
  `processCurrentApiData`, `processHistoricalApiData`, `formatDate`,
  `parseCustomDate`, `getCachedOrFetch`, ...), and
* a customer XML import (`prepareAndImportXMLFileCust`,
  `importXMLFileDataCust`, `findDuplicatesCust`, `convertToBoolean`,
  `convertToDateTime`).

This file shallowly embeds those functions and proves or refutes the
frozen specification claims about them.  JavaScript numbers are modelled
as exact rationals extended with NaN and the two infinities where the
source can produce them; machine `Date` instants are modelled as integer
milliseconds since the Unix epoch.  External collaborators (the
spreadsheet store, the HTTP stack, the TTL cache, the JSON codec for
payloads and the implementation-defined JS `Date` string parser) are
modelled at their interface boundary, as explicit parameters.
-/

/-! ## JavaScript primitive value model -/

/-- A JavaScript value as it can appear in an API payload field:
a number, a string, `null`, `undefined` or a boolean. -/
inductive JVal where
  | num (q : ℚ)
  | str (s : String)
  | jnull
  | undef
  | jbool (b : Bool)
deriving DecidableEq, Repr

/-- A JavaScript number: finite (exact rational), `NaN`, `Infinity`
or `-Infinity`. -/
inductive JSNum where
  | fin (q : ℚ)
  | nan
  | posInf
  | negInf
deriving DecidableEq, Repr

namespace JSNum

/-- JS subtraction. -/
def sub : JSNum → JSNum → JSNum
  | fin a, fin b => fin (a - b)
  | fin _, posInf => negInf
  | fin _, negInf => posInf
  | posInf, fin _ => posInf
  | negInf, fin _ => negInf
  | posInf, negInf => posInf
  | negInf, posInf => negInf
  | posInf, posInf => nan
  | negInf, negInf => nan
  | nan, _ => nan
  | _, nan => nan

/-- JS division (IEEE semantics on the values our model can produce;
division by zero of a nonzero finite numerator gives an infinity,
`0 / 0` gives `NaN`). -/
def div : JSNum → JSNum → JSNum
  | fin a, fin b =>
      if b = 0 then
        if a > 0 then posInf else if a < 0 then negInf else nan
      else fin (a / b)
  | fin _, posInf => fin 0
  | fin _, negInf => fin 0
  | posInf, fin b => if b < 0 then negInf else posInf
  | negInf, fin b => if b < 0 then posInf else negInf
  | posInf, posInf => nan
  | posInf, negInf => nan
  | negInf, posInf => nan
  | negInf, negInf => nan
  | nan, _ => nan
  | _, nan => nan

/-- JS multiplication. -/
def mul : JSNum → JSNum → JSNum
  | fin a, fin b => fin (a * b)
  | fin a, posInf => if a > 0 then posInf else if a < 0 then negInf else nan
  | fin a, negInf => if a > 0 then negInf else if a < 0 then posInf else nan
  | posInf, fin b => if b > 0 then posInf else if b < 0 then negInf else nan
  | negInf, fin b => if b > 0 then negInf else if b < 0 then posInf else nan
  | posInf, posInf => posInf
  | negInf, negInf => posInf
  | posInf, negInf => negInf
  | negInf, posInf => negInf
  | nan, _ => nan
  | _, nan => nan

end JSNum

/-- One decimal digit as a value. -/
def digitVal (c : Char) : Option Nat :=
  if c.isDigit then some (c.toNat - '0'.toNat) else none

/-- Accumulate a run of leading decimal digits; returns the value, the
number of digits consumed and the rest. -/
def takeDigits : List Char → Nat → Nat → Nat × Nat × List Char
  | [], acc, n => (acc, n, [])
  | c :: cs, acc, n =>
      match digitVal c with
      | some d => takeDigits cs (acc * 10 + d) (n + 1)
      | none => (acc, n, c :: cs)

/-- JS `parseInt(s, 10)`: skip leading whitespace, read an optional
sign and then a nonempty run of decimal digits; `none` models `NaN`. -/
def jsParseInt (s : String) : Option Int :=
  let cs := s.toList.dropWhile (fun c => c = ' ' ∨ c = '\t' ∨ c = '\n' ∨ c = '\r')
  let (neg, cs) :=
    match cs with
    | '-' :: rest => (true, rest)
    | '+' :: rest => (false, rest)
    | rest => (false, rest)
  let (v, n, _) := takeDigits cs 0 0
  if n = 0 then none
  else some (if neg then -(v : Int) else (v : Int))

/-- JS `parseFloat(s)` restricted to plain decimal literals
(optional sign, digits, optional fractional part); `none` models `NaN`.
Exponent suffixes and the literal `Infinity` are not modelled: the API
payloads this program consumes never carry them. -/
def strParseFloat (s : String) : Option ℚ :=
  let cs := s.toList.dropWhile (fun c => c = ' ' ∨ c = '\t' ∨ c = '\n' ∨ c = '\r')
  let (neg, cs) :=
    match cs with
    | '-' :: rest => (true, rest)
    | '+' :: rest => (false, rest)
    | rest => (false, rest)
  let (ip, ni, cs) := takeDigits cs 0 0
  match cs with
  | '.' :: rest =>
      let (fp, nf, _) := takeDigits rest 0 0
      if ni = 0 ∧ nf = 0 then none
      else
        let mag : ℚ := (ip : ℚ) + (fp : ℚ) / ((10 : ℚ) ^ nf)
        some (if neg then -mag else mag)
  | _ =>
      if ni = 0 then none
      else some (if neg then -(ip : ℚ) else (ip : ℚ))

/-- JS `parseFloat` applied to an arbitrary payload value (the argument
is first converted to a string; numbers parse back to themselves,
`null`/`undefined`/booleans stringify to non-numeric words). -/
def jvParseFloat : JVal → JSNum
  | .num q => .fin q
  | .str s => match strParseFloat s with
              | some q => .fin q
              | none => .nan
  | .jnull => .nan
  | .undef => .nan
  | .jbool _ => .nan

/-- JS `x || 0` applied to a parsed number: `NaN` and `0` are falsy and
collapse to `0`.  (In this model `parseFloat` never returns an
infinity, so only finite values and `NaN` can reach this point.) -/
def jsOr0 : JSNum → ℚ
  | .fin q => q
  | _ => 0

/-- `String.prototype.split` on a character class, over char lists:
`"a//b"` splits to `["a", "", "b"]` and `""` to `[""]`, exactly as the
JS regex split does. -/
def charSplit (p : Char → Bool) : List Char → List (List Char)
  | [] => [[]]
  | c :: cs =>
      match charSplit p cs with
      | [] => [[]]
      | t :: ts => if p c then [] :: t :: ts else (c :: t) :: ts

/-- `s.split(sep)` as the scripts use it. -/
def jsSplit (p : Char → Bool) (s : String) : List String :=
  (charSplit p s.toList).map (fun cs => ⟨cs⟩)

/-- `toLowerCase()` on the ASCII range (all the strings this program
lowercases — `"Verdadero"`, `"p.m."`, ... — are ASCII). -/
def asciiLower (s : String) : String :=
  ⟨s.toList.map (fun c =>
    if 'A' ≤ c ∧ c ≤ 'Z' then Char.ofNat (c.toNat + 32) else c)⟩

/-- `value.replace('.', ',')`: JS replaces the first occurrence, but
every string this is applied to (a `toFixed` result) has at most one
dot, so a char map is exact. -/
def replaceDotByComma (s : String) : String :=
  ⟨s.toList.map (fun c => if c = '.' then ',' else c)⟩

/-! ## Date core

A `Date` instant is an integer count of milliseconds since the Unix
epoch.  Civil-date conversions use the standard era-based algorithm,
matching ECMAScript `Date` UTC field extraction exactly. -/

def msPerDay : Int := 86400000
def msPerHour : Int := 3600000

/-- Days since 1970-01-01 of the civil date `(y, m, d)` (proleptic
Gregorian, `m` in 1..12). -/
def daysFromCivil (y m d : Int) : Int :=
  let y := if m ≤ 2 then y - 1 else y
  let era := Int.fdiv (if y ≥ 0 then y else y - 399) 400
  let yoe := y - era * 400
  let mp := Int.fdiv (153 * (m + (if m > 2 then -3 else 9)) + 2) 5
  let doy := mp + d - 1
  let doe := yoe * 365 + Int.fdiv yoe 4 - Int.fdiv yoe 100 + doy
  era * 146097 + doe - 719468

/-- Civil date `(y, m, d)` of a day count since 1970-01-01. -/
def civilFromDays (z : Int) : Int × Int × Int :=
  let z := z + 719468
  let era := Int.fdiv (if z ≥ 0 then z else z - 146096) 146097
  let doe := z - era * 146097
  let yoe := Int.fdiv (doe - Int.fdiv doe 1460 + Int.fdiv doe 36524 - Int.fdiv doe 146096) 365
  let y := yoe + era * 400
  let doy := doe - (365 * yoe + Int.fdiv yoe 4 - Int.fdiv yoe 100)
  let mp := Int.fdiv (5 * doy + 2) 153
  let d := doy - Int.fdiv (153 * mp + 2) 5 + 1
  let m := if mp < 10 then mp + 3 else mp - 9
  (if m ≤ 2 then y + 1 else y, m, d)

/-- `getUTCFullYear`-style field extraction from an instant. -/
def utcYear (t : Int) : Int := (civilFromDays (Int.fdiv t msPerDay)).1
def utcMonth (t : Int) : Int := (civilFromDays (Int.fdiv t msPerDay)).2.1
def utcDay (t : Int) : Int := (civilFromDays (Int.fdiv t msPerDay)).2.2
def utcHours (t : Int) : Int := Int.fdiv (Int.emod t msPerDay) msPerHour
def utcMinutes (t : Int) : Int := Int.fdiv (Int.emod t 3600000) 60000
def utcSeconds (t : Int) : Int := Int.fdiv (Int.emod t 60000) 1000
/-- `getUTCDay`: 0 = Sunday.  1970-01-01 was a Thursday. -/
def utcWeekday (t : Int) : Int := Int.emod (Int.fdiv t msPerDay + 4) 7

/-- The JS idiom `('0' + n).slice(-2)`. -/
def jsPad2 (n : Int) : String :=
  let s := "0" ++ toString n
  ⟨s.toList.drop (s.toList.length - 2)⟩

/-- `toString().slice(-2)` on a year number. -/
def jsLast2 (n : Int) : String :=
  let s := toString n
  ⟨s.toList.drop (s.toList.length - 2)⟩

/-- Spanish weekday names indexed by `getUTCDay`, as in the source. -/
def daysOfWeek : List String :=
  ["Domingo", "Lunes", "Martes", "Miércoles", "Jueves", "Viernes", "Sábado"]

/-- Spanish month names indexed by `getUTCMonth`, as in the source. -/
def monthNames : List String :=
  ["Enero", "Febrero", "Marzo", "Abril", "Mayo", "Junio", "Julio",
   "Agosto", "Septiembre", "Octubre", "Noviembre", "Diciembre"]

/-- `formatDate(date, format)` from the source: shift the instant by a
fixed −3 hours (the Argentina civil-time convention) and then read all
fields with the UTC accessors; render according to `format`. -/
def formatDate (t : Int) (format : String) : String :=
  let a := t - 3 * msPerHour
  let day := jsPad2 (utcDay a)
  let month := jsPad2 (utcMonth a)
  let year := utcYear a
  let shortYear := jsLast2 year
  let hours := jsPad2 (utcHours a)
  let minutes := jsPad2 (utcMinutes a)
  let seconds := jsPad2 (utcSeconds a)
  let wd := (daysOfWeek.getD (utcWeekday a).toNat "")
  let mn := (monthNames.getD (utcMonth a - 1).toNat "")
  if format = "verbose" then
    wd ++ " " ++ day ++ " de " ++ mn ++ " de " ++ toString year
  else if format = "sheet" then
    toString year ++ "-" ++ month ++ "-" ++ day
  else if format = "api" then
    toString year ++ "/" ++ month ++ "/" ++ day
  else if format = "dateTime" then
    day ++ "/" ++ month ++ "/" ++ shortYear ++ " " ++ hours ++ ":" ++ minutes ++ ":" ++ seconds
  else if format = "verboseLong" then
    wd ++ " " ++ day ++ " de " ++ mn ++ " " ++ hours ++ ":" ++ minutes ++ ":" ++ seconds
  else if format = "dayColumn" then
    wd ++ " " ++ day ++ "/" ++ month ++ "/" ++ toString year
  else if format = "fullLong" then
    wd ++ " " ++ day ++ "-" ++ month ++ "-" ++ shortYear
  else if format = "time" then
    hours ++ ":" ++ minutes ++ ":" ++ seconds
  else if format = "fullLongWithTime" then
    wd ++ " " ++ day ++ "-" ++ month ++ "-" ++ shortYear ++ " " ++ hours ++ ":" ++ minutes ++ ":" ++ seconds
  else
    day ++ "/" ++ month ++ "/" ++ toString year

/-- How the source renders the `'sheet'` key of an invalid JS date
(`NaN` year prints as `NaN`, and `('0' + NaN).slice(-2)` is `"aN"`). -/
def invalidSheetKey : String := "NaN-aN-aN"

/-! ## Number rendering (`toFixed` and the locale comma) -/

/-- Left-pad a numeral string with zeros to width `w`. -/
def padZeros (s : String) (w : Nat) : String :=
  ⟨List.replicate (w - s.toList.length) '0'⟩ ++ s

/-- `x.toFixed(d)` for non-negative `x`: the integer `n` closest to
`x·10^d` (ties to the larger `n`), i.e. the floor of `x·10^d + 1/2`,
rendered with `d` fractional digits. -/
def toFixedNonneg (q : ℚ) (d : Nat) : String :=
  let n : Int := ⌊q * (10 : ℚ) ^ d + 1 / 2⌋
  let n : Nat := n.toNat
  if d = 0 then toString n
  else toString (n / 10 ^ d) ++ "." ++ padZeros (toString (n % 10 ^ d)) d

/-- JS `Number.prototype.toFixed`: a leading `-` for negative input,
then the non-negative rendering. -/
def toFixedQ (q : ℚ) (d : Nat) : String :=
  if q < 0 then "-" ++ toFixedNonneg (-q) d else toFixedNonneg q d

/-- The row-preparation helper `formatNumber(value, decimals = 2)`:
`value.toFixed(decimals).replace('.', ',')`. -/
def formatNumberQ (q : ℚ) (d : Nat := 2) : String :=
  replaceDotByComma (toFixedQ q d)

/-- The row-preparation helper `formatPercentage(value)`:
`(value * 100).toFixed(2).replace('.', ',') + '%'`. -/
def formatPercentageQ (q : ℚ) : String :=
  replaceDotByComma (toFixedQ (q * 100) 2) ++ "%"

/-! ## Rate normalizers -/

/-- One element of the JSON array both rate APIs return:
`{casa, compra, venta, fecha?, fechaActualizacion?}`.  `none` in the
two date fields models an absent (`undefined`) property. -/
structure ApiEntry where
  casa : String
  compra : JVal
  venta : JVal
  fecha : Option String
  fechaActualizacion : Option String
deriving DecidableEq, Repr

/-- The record `processCurrentApiData` builds: ten price fields as JS
numbers (no `|| 0` coercion in this normalizer), the upstream `as-of`
string, and the two spread fields. -/
structure CurrentValues where
  oficialCompra : JSNum
  oficialVenta : JSNum
  blueCompra : JSNum
  blueVenta : JSNum
  mepCompra : JSNum
  mepVenta : JSNum
  criptoCompra : JSNum
  criptoVenta : JSNum
  mayoristaCompra : JSNum
  mayoristaVenta : JSNum
  fechaActualizacion : Option String
  blueOficialBreach : JSNum
  blueMepBreach : JSNum
deriving DecidableEq, Repr

/-- The inner `findValue(casa)` of `processCurrentApiData`: the first
entry named `casa`, its `compra`/`venta` run through `parseFloat`;
a missing name yields `{compra: 0, venta: 0}`. -/
def findValue (data : List ApiEntry) (casa : String) : JSNum × JSNum :=
  match data.find? (fun d => d.casa = casa) with
  | some item => (jvParseFloat item.compra, jvParseFloat item.venta)
  | none => (.fin 0, .fin 0)

/-- `processCurrentApiData(data)`.  `nowIso` stands for
`new Date().toISOString()`, used only when the payload is empty.
The spreads here are `((blue.venta − x.venta) / x.venta) * 100`,
computed in JS arithmetic with no zero guard. -/
def processCurrentApiData (data : List ApiEntry) (nowIso : String) : CurrentValues :=
  let oficial := findValue data "oficial"
  let blue := findValue data "blue"
  let mep := findValue data "bolsa"
  let cripto := findValue data "cripto"
  let mayorista := findValue data "mayorista"
  let fa : Option String :=
    match data.head? with
    | some e => e.fechaActualizacion
    | none => some nowIso
  { oficialCompra := oficial.1, oficialVenta := oficial.2
    blueCompra := blue.1, blueVenta := blue.2
    mepCompra := mep.1, mepVenta := mep.2
    criptoCompra := cripto.1, criptoVenta := cripto.2
    mayoristaCompra := mayorista.1, mayoristaVenta := mayorista.2
    fechaActualizacion := fa
    blueOficialBreach := (JSNum.sub blue.2 oficial.2).div oficial.2 |>.mul (.fin 100)
    blueMepBreach := (JSNum.sub blue.2 mep.2).div mep.2 |>.mul (.fin 100) }

/-- The record `processHistoricalApiData` builds: every price field is
forced finite by `parseFloat(x) || 0`, and the spreads are raw ratios
with an explicit zero guard. -/
structure HistValues where
  oficialCompra : ℚ
  oficialVenta : ℚ
  blueCompra : ℚ
  blueVenta : ℚ
  mepCompra : ℚ
  mepVenta : ℚ
  criptoCompra : ℚ
  criptoVenta : ℚ
  mayoristaCompra : ℚ
  mayoristaVenta : ℚ
  fechaActualizacion : String
  blueOficialBreach : ℚ
  blueMepBreach : ℚ
deriving DecidableEq, Repr

/-- `parseFloat(entry?.field) || 0` for an optionally-found entry:
optional chaining on a missing entry yields `undefined`, whose
`parseFloat` is `NaN`, which `|| 0` collapses to `0`. -/
def histField (entry : Option ApiEntry) (sel : ApiEntry → JVal) : ℚ :=
  jsOr0 (match entry with
         | some e => jvParseFloat (sel e)
         | none => .nan)

/-- `data[0]?.fecha || new Date().toISOString()`: absent first entry,
absent field or empty string all fall through to the current instant. -/
def histFecha (data : List ApiEntry) (nowIso : String) : String :=
  match data.head? with
  | some e =>
      match e.fecha with
      | some s => if s = "" then nowIso else s
      | none => nowIso
  | none => nowIso

/-- `processHistoricalApiData(data)` with `nowIso` standing for
`new Date().toISOString()`. -/
def processHistoricalApiData (data : List ApiEntry) (nowIso : String) : HistValues :=
  let oficialData := data.find? (fun d => d.casa = "oficial")
  let blueData := data.find? (fun d => d.casa = "blue")
  let bolsaData := data.find? (fun d => d.casa = "bolsa")
  let mayoristaData := data.find? (fun d => d.casa = "mayorista")
  let criptoData := data.find? (fun d => d.casa = "cripto")
  let oficialVenta := histField oficialData (·.venta)
  let blueVenta := histField blueData (·.venta)
  let mepVenta := histField bolsaData (·.venta)
  { oficialCompra := histField oficialData (·.compra)
    oficialVenta := oficialVenta
    blueCompra := histField blueData (·.compra)
    blueVenta := blueVenta
    mepCompra := histField bolsaData (·.compra)
    mepVenta := mepVenta
    criptoCompra := histField criptoData (·.compra)
    criptoVenta := histField criptoData (·.venta)
    mayoristaCompra := histField mayoristaData (·.compra)
    mayoristaVenta := histField mayoristaData (·.venta)
    fechaActualizacion := histFecha data nowIso
    blueOficialBreach := if oficialVenta ≠ 0 then (blueVenta - oficialVenta) / oficialVenta else 0
    blueMepBreach := if mepVenta ≠ 0 then (blueVenta - mepVenta) / mepVenta else 0 }

/-! ## Sheet cells and the row codec -/

/-- A spreadsheet cell as the scripts can see it: a string, a number,
`NaN`, a boolean, a valid `Date`, an invalid `Date`, or `null`. -/
inductive CellV where
  | str (s : String)
  | num (q : ℚ)
  | nan
  | cbool (b : Bool)
  | cdate (t : Int)
  | invalidDate
  | cnull
deriving DecidableEq, Repr

/-- `new Date(cellValue)`, `none` modelling an invalid date.  A string
cell goes through the JS date parser, which is implementation-defined
outside the ISO format and therefore a parameter `parseStr` here.
Numbers are time values (truncated toward zero), booleans and `null`
coerce through `ToNumber`. -/
def cellToDate (parseStr : String → Option Int) : CellV → Option Int
  | .cdate t => some t
  | .str s => parseStr s
  | .num q => some (if q ≥ 0 then ⌊q⌋ else ⌈q⌉)
  | .nan => none
  | .cbool b => some (if b then 1 else 0)
  | .cnull => some 0
  | .invalidDate => none

/-- `formatDate(new Date(row[0]), 'sheet')`: the sortable key the
engine derives from a stored row's first cell. -/
def rowKey (parseStr : String → Option Int) (row : List CellV) : String :=
  match row.head? with
  | none => invalidSheetKey
  | some c =>
      match cellToDate parseStr c with
      | some t => formatDate t "sheet"
      | none => invalidSheetKey

/-- `prepareHistoricalRowData(date, apiResponse)` run on a present
payload: the fixed 15-column row of formatted strings.  `nowMs` is the
`new Date()` the source takes for the two timestamp columns, `nowIso`
the ISO fallback inside the normalizer.  (The source's `null` returns
correspond to an absent payload, which the callers model with an
`Option` at the fetch boundary.) -/
def prepareHistoricalRowData (day : Int) (data : List ApiEntry) (nowMs : Int)
    (nowIso : String) : List CellV :=
  let values := processHistoricalApiData data nowIso
  [ .str (formatDate day "dayColumn"),
    .str (formatNumberQ values.oficialCompra),
    .str (formatNumberQ values.oficialVenta),
    .str (formatNumberQ values.blueCompra),
    .str (formatNumberQ values.blueVenta),
    .str (formatNumberQ values.mepCompra),
    .str (formatNumberQ values.mepVenta),
    .str (formatNumberQ values.criptoCompra),
    .str (formatNumberQ values.criptoVenta),
    .str (formatNumberQ values.mayoristaCompra),
    .str (formatNumberQ values.mayoristaVenta),
    .str (formatPercentageQ values.blueOficialBreach),
    .str (formatPercentageQ values.blueMepBreach),
    .str (formatDate nowMs "dateTime"),
    .str (formatDate nowMs "dateTime") ]

/-! ## Reconciliation engine -/

/-- The calendar days visited by the source's
`while (currentDate <= endDate) { ...; currentDate.setDate(+1) }`
loop, as instants one day apart. -/
def dayList (start stop : Int) : List Int :=
  if _h : start ≤ stop then start :: dayList (start + msPerDay) stop else []
termination_by (stop + msPerDay - start).toNat
decreasing_by simp only [msPerDay] at *; omega

/-- The per-day classification loop of `updateHistoricalValues`: for
each day with an available payload, build the row and queue it as an
in-place update (1-based row index of the matching key in the
snapshot) when the sortable key already exists, else as an append. -/
def classifyDays (parseStr : String → Option Int) (api : Int → Option (List ApiEntry))
    (nowMs : Int) (nowIso : String) (existing : List (List CellV)) :
    List Int → List (Nat × List CellV) × List (List CellV)
  | [] => ([], [])
  | day :: rest =>
      let acc := classifyDays parseStr api nowMs nowIso existing rest
      match api day with
      | none => acc
      | some pl =>
          let row := prepareHistoricalRowData day pl nowMs nowIso
          let key := formatDate day "sheet"
          if (existing.map (rowKey parseStr)).contains key then
            ((existing.findIdx (fun r => rowKey parseStr r = key) + 1, row) :: acc.1, acc.2)
          else
            (acc.1, row :: acc.2)

/-- The `rowsToUpdate.forEach` of `updateHistoricalValues`: write each
queued update in place when its 1-based row index is within the sheet,
otherwise push its row onto the pending-append list.  Returns the sheet
after the in-place writes together with the final append list. -/
def applyRowUpdates (updates : List (Nat × List CellV)) (adds : List (List CellV))
    (sheet : List (List CellV)) : List (List CellV) × List (List CellV) :=
  updates.foldl
    (fun acc u =>
      if 0 < u.1 ∧ u.1 ≤ acc.1.length then (acc.1.set (u.1 - 1) u.2, acc.2)
      else (acc.1, acc.2 ++ [u.2]))
    (sheet, adds)

/-- `sortSheetByDate`: the store sorts every row below the first one;
the comparison belongs to the external store, so the reordering is a
parameter (theorems assume only that it permutes the rows). -/
def sortKeepHeader (sortFn : List (List CellV) → List (List CellV)) :
    List (List CellV) → List (List CellV)
  | [] => []
  | h :: t => h :: sortFn t

/-- `validateDate(date, minDate, maxDate)`: throws when the date is
outside `[minDate, maxDate]`.  (Instants in this model are always valid
dates, so the source's `isNaN` branch cannot fire.) -/
def validateDateE (date minD maxD : Int) : Except String Unit :=
  if date < minD ∨ date > maxD then
    .error ("La fecha debe estar entre " ++ formatDate minD "short" ++ " y "
      ++ formatDate maxD "short")
  else .ok ()

/-- `new Date('2015-01-01')`: the ISO form parses as UTC midnight. -/
def minDateMs : Int := daysFromCivil 2015 1 1 * msPerDay

/-- `getSheetData(sheet)`: throws (wrapped) when the sheet has no data. -/
def getSheetDataE (sheet : List (List CellV)) : Except String (List (List CellV)) :=
  match sheet with
  | [] => .error "Error al obtener datos de la hoja: No hay datos en el rango especificado"
  | rows => .ok rows

/-- What a range reconciliation leaves behind: the sheet and either the
thrown message or the reported `(updated, added)` counts. -/
structure HistResult where
  sheet : List (List CellV)
  outcome : Except String (Nat × Nat)
deriving Repr

/-- `updateHistoricalValues(sheet, startDate, endDate)`.  Mirrors the
source order exactly: validate both dates, snapshot the sheet, classify
every day of the range against the snapshot, apply in-place updates
(redirecting out-of-range indices into the append list), bulk-append,
re-sort below the header, and report the two counts.  Any validation
throw is caught and returned as an error with the sheet untouched. -/
def updateHistoricalValues (parseStr : String → Option Int)
    (sortFn : List (List CellV) → List (List CellV))
    (api : Int → Option (List ApiEntry)) (nowMs : Int) (nowIso : String)
    (sheet : List (List CellV)) (startDate endDate : Int) : HistResult :=
  match validateDateE startDate minDateMs nowMs with
  | .error e => ⟨sheet, .error e⟩
  | .ok _ =>
  match validateDateE endDate startDate nowMs with
  | .error e => ⟨sheet, .error e⟩
  | .ok _ =>
  match getSheetDataE sheet with
  | .error e => ⟨sheet, .error e⟩
  | .ok existingData =>
      let cls := classifyDays parseStr api nowMs nowIso existingData
        (dayList startDate endDate)
      let applied := applyRowUpdates cls.1 cls.2 sheet
      ⟨sortKeepHeader sortFn (applied.1 ++ applied.2),
       .ok (cls.1.length, applied.2.length)⟩

/-! ## User-entered date parsing -/

/-- `dateStr.split(/[\/\-]/)`. -/
def splitDateTokens (s : String) : List String :=
  jsSplit (fun c => c = '/' ∨ c = '-') s

/-- The civil day denoted by JS `new Date(year, monthIndex, day)`:
out-of-range month indices and days roll over arithmetically. -/
def jsMakeDay (year monthIndex day : Int) : Int :=
  let ym := year * 12 + monthIndex
  daysFromCivil (Int.fdiv ym 12) (Int.emod ym 12 + 1) 1 + (day - 1)

/-- `parseCustomDate(dateStr)`, with `currentYear` standing for
`new Date().getFullYear()`.  The result is the civil `(y, m, d)` the
constructed `Date` denotes (the source returns the `Date` itself).
The `isNaN` validity check only fires when some component fails to
parse as a number, since `new Date(year, month, day)` rolls invalid
calendar combinations over instead of producing an invalid date. -/
def parseCustomDate (dateStr : String) (currentYear : Int) :
    Except String (Int × Int × Int) :=
  let parts := splitDateTokens dateStr
  if parts.length < 2 ∨ parts.length > 3 then
    .error "Formato de fecha inválido. Use dd/mm o dd/mm/yy."
  else
    let dayP := jsParseInt (parts.getD 0 "")
    let monthP := jsParseInt (parts.getD 1 "")
    let yearP : Option Int :=
      if parts.length = 3 then
        (jsParseInt (parts.getD 2 "")).map (fun y => if y < 100 then y + 2000 else y)
      else some currentYear
    match dayP, monthP, yearP with
    | some d, some m, some y => .ok (civilFromDays (jsMakeDay y (m - 1) d))
    | _, _, _ => .error "Fecha inválida"

/-- `validateDateRange(startDate, endDate)` of the
`updateDollarsByRange` entry path. -/
def validateDateRange (startDate endDate nowMs : Int) : Except String Unit :=
  if startDate > endDate then
    .error "La fecha de inicio debe ser anterior o igual a la fecha de fin."
  else
    match validateDateE startDate minDateMs nowMs with
    | .error e => .error e
    | .ok _ => validateDateE endDate minDateMs nowMs

/-! ## HTTP + TTL cache client -/

/-- The script cache: stored string values with absolute expiry
instants (CacheService expires an entry `ttl` seconds after `put`). -/
structure CacheState where
  entries : List (String × String × Int)
deriving DecidableEq, Repr

/-- `cache.get(url)` at instant `now`: the stored value while it has
not expired. -/
def cacheGet (c : CacheState) (url : String) (now : Int) : Option String :=
  (c.entries.find? (fun e => e.1 = url)).bind
    (fun e => if now < e.2.2 then some e.2.1 else none)

/-- `cache.put(url, value, ttlSeconds)` at instant `now`. -/
def cachePut (c : CacheState) (url value : String) (ttlSec now : Int) : CacheState :=
  ⟨(url, value, now + ttlSec * 1000) :: c.entries.filter (fun e => e.1 ≠ url)⟩

/-- Hex digit characters as `JSON.stringify` emits them. -/
def hexDigitCh (n : Nat) : Char :=
  "0123456789abcdef".toList.getD n '0'

/-- How `JSON.stringify` escapes one character of a string. -/
def jsonEscapeChar (c : Char) : List Char :=
  if c = '"' then ['\\', '"']
  else if c = '\\' then ['\\', '\\']
  else if c = '\n' then ['\\', 'n']
  else if c = '\t' then ['\\', 't']
  else if c = '\r' then ['\\', 'r']
  else if c = '\x08' then ['\\', 'b']
  else if c = '\x0c' then ['\\', 'f']
  else if c.toNat < 32 then
    ['\\', 'u', '0', '0', hexDigitCh (c.toNat / 16), hexDigitCh (c.toNat % 16)]
  else [c]

/-- `JSON.stringify` of a string value. -/
def jsonStringifyStr (s : String) : String :=
  ⟨'"' :: (s.toList.flatMap jsonEscapeChar) ++ ['"']⟩

/-- Value of one hex digit character. -/
def hexVal (c : Char) : Option Nat :=
  if '0' ≤ c ∧ c ≤ '9' then some (c.toNat - '0'.toNat)
  else if 'a' ≤ c ∧ c ≤ 'f' then some (c.toNat - 'a'.toNat + 10)
  else if 'A' ≤ c ∧ c ≤ 'F' then some (c.toNat - 'A'.toNat + 10)
  else none

/-- Decode the body of a JSON string literal up to and including its
closing quote (which must end the input); `none` models a
`JSON.parse` syntax error. -/
def jsonUnescapeBody : List Char → Option (List Char)
  | [] => none
  | c :: rest =>
      if c = '"' then (if rest.isEmpty then some [] else none)
      else if c = '\\' then
        match rest with
        | [] => none
        | e :: rest1 =>
            if e = '"' then (jsonUnescapeBody rest1).map ('"' :: ·)
            else if e = '\\' then (jsonUnescapeBody rest1).map ('\\' :: ·)
            else if e = '/' then (jsonUnescapeBody rest1).map ('/' :: ·)
            else if e = 'n' then (jsonUnescapeBody rest1).map ('\n' :: ·)
            else if e = 't' then (jsonUnescapeBody rest1).map ('\t' :: ·)
            else if e = 'r' then (jsonUnescapeBody rest1).map ('\r' :: ·)
            else if e = 'b' then (jsonUnescapeBody rest1).map ('\x08' :: ·)
            else if e = 'f' then (jsonUnescapeBody rest1).map ('\x0c' :: ·)
            else if e = 'u' then
              match rest1 with
              | h1 :: h2 :: h3 :: h4 :: rest2 =>
                  match hexVal h1, hexVal h2, hexVal h3, hexVal h4 with
                  | some v1, some v2, some v3, some v4 =>
                      let n := ((v1 * 16 + v2) * 16 + v3) * 16 + v4
                      if n < 1114112 then
                        (jsonUnescapeBody rest2).map (Char.ofNat n :: ·)
                      else none
                  | _, _, _, _ => none
              | _ => none
            else none
      else if c.toNat < 32 then none
      else (jsonUnescapeBody rest).map (c :: ·)

/-- `JSON.parse` restricted to string literals (the only shape this
program ever stores in the cache). -/
def jsonParseStr (s : String) : Except String String :=
  match s.toList with
  | '"' :: rest =>
      match jsonUnescapeBody rest with
      | some cs => .ok ⟨cs⟩
      | none => .error "SyntaxError: Unexpected token in JSON"
  | _ => .error "SyntaxError: Unexpected token in JSON"

/-- `getCachedOrFetch(url, cacheTime = 3600)`.  `net` is the external
`UrlFetchApp.fetch`, which throws (`Except.error`) on transport failure
or a non-success HTTP status; this function has no try/catch, so that
error propagates to the caller.  The returned `Nat` counts network
fetches performed. -/
def getCachedOrFetch (cache : CacheState) (net : String → Except String String)
    (url : String) (now : Int) (cacheTime : Int := 3600) :
    Except String (String × CacheState × Nat) :=
  match cacheGet cache url now with
  | some cached => (jsonParseStr cached).map (fun s => (s, cache, 0))
  | none =>
      match net url with
      | .error e => .error e
      | .ok text => .ok (text, cachePut cache url (jsonStringifyStr text) cacheTime now, 1)

def API_CURRENT : String := "https://dolarapi.com/v1/dolares"
def API_HISTORICAL : String := "https://api.argentinadatos.com/v1/cotizaciones/dolares/"

/-- The URL `fetchDataFromApis` builds for a date and API type. -/
def fetchUrlFor (date : Int) (apiType : String) : String :=
  if apiType = "current" then API_CURRENT
  else API_HISTORICAL ++ formatDate date "api"

/-- `fetchDataFromApis(date, apiType)`: wraps `getCachedOrFetch` in a
try/catch that converts any thrown error (transport failure, HTTP
error status, malformed JSON) into `null`, and also treats an empty
response as no data.  `decode` is the external `JSON.parse` for
payload arrays. -/
def fetchDataFromApis (decode : String → Except String (List ApiEntry))
    (cache : CacheState) (net : String → Except String String)
    (date : Int) (apiType : String) (now : Int) :
    Option (List ApiEntry) × CacheState :=
  match getCachedOrFetch cache net (fetchUrlFor date apiType) now with
  | .error _ => (none, cache)
  | .ok (text, c1, _) =>
      if text = "" then (none, c1)
      else
        match decode text with
        | .error _ => (none, c1)
        | .ok data => (some data, c1)

/-! ## Customer XML import -/

/-- One `DATO` record: its child elements in document order, as
`(tag name, text content)` pairs. -/
def XmlEntry := List (String × String)

/-- `entry.getChildText(name)`: `null` when no such child exists. -/
def getChildText (e : XmlEntry) (name : String) : Option String :=
  ((e : List (String × String)).find? (fun c => c.1 = name)).map (·.2)

/-- `convertToBoolean(value)`: `value.toLowerCase() === 'verdadero'`.
Calling it on `null` (an absent child) throws a `TypeError`, since
`null` has no `toLowerCase` method. -/
def convertToBoolean (value : Option String) : Except String Bool :=
  match value with
  | none => .error "Cannot read properties of null (reading 'toLowerCase')"
  | some s => .ok (asciiLower s = "verdadero")

/-- JS `Number(s)`: trimmed empty string is `0`, a full decimal literal
is its value, anything else is `NaN` (`none`).  Hex/exponent forms are
not modelled; the imported files never carry them. -/
def jsNumber (s : String) : Option ℚ :=
  let cs := s.toList.dropWhile (fun c => c = ' ' ∨ c = '\t' ∨ c = '\n' ∨ c = '\r')
  let cs := (cs.reverse.dropWhile (fun c => c = ' ' ∨ c = '\t' ∨ c = '\n' ∨ c = '\r')).reverse
  if cs.isEmpty then some 0
  else
    let (neg, cs) :=
      match cs with
      | '-' :: rest => (true, rest)
      | '+' :: rest => (false, rest)
      | rest => (false, rest)
    let (ip, ni, cs) := takeDigits cs 0 0
    match cs with
    | '.' :: rest =>
        let (fp, nf, rest2) := takeDigits rest 0 0
        if (ni = 0 ∧ nf = 0) ∨ ¬rest2.isEmpty then none
        else
          let mag : ℚ := (ip : ℚ) + (fp : ℚ) / ((10 : ℚ) ^ nf)
          some (if neg then -mag else mag)
    | [] =>
        if ni = 0 then none
        else some (if neg then -(ip : ℚ) else (ip : ℚ))
    | _ => none

/-- Truncation toward zero: how `Date` arguments pass `ToInteger`. -/
def qTrunc (q : ℚ) : Int := if q ≥ 0 then ⌊q⌋ else ⌈q⌉

/-- Destructured `list.map(Number)` component `i`: a missing token is
`undefined`, which behaves as `NaN` in the `Date` constructor. -/
def numTok (toks : List String) (i : Nat) : Option ℚ :=
  match toks.get? i with
  | none => none
  | some tok => jsNumber tok

/-- `convertToDateTime(dateTimeStr)`: accepts
`dd/MM/yyyy HH:mm:ss a.m.|p.m.`; any `NaN` component makes the
constructed date invalid.  The local timezone used by
`new Date(y, m, d, h, min, s)` is taken as the project's fixed UTC−3
convention. -/
def convertToDateTime (dateTimeStr : Option String) : CellV :=
  match dateTimeStr with
  | none => .cnull
  | some s =>
      let parts := jsSplit (· = ' ') s
      if parts.length ≠ 3 then .cnull
      else
        let datePart := parts.getD 0 ""
        let timePart := parts.getD 1 ""
        let period := parts.getD 2 ""
        let dmy := jsSplit (· = '/') datePart
        let hms := jsSplit (· = ':') timePart
        match numTok dmy 0, numTok dmy 1, numTok dmy 2,
              numTok hms 0, numTok hms 1, numTok hms 2 with
        | some day, some month, some year, some hours, some minutes, some seconds =>
            let adjustedHours :=
              if asciiLower period = "p.m." ∧ hours < 12 then hours + 12
              else if asciiLower period = "a.m." ∧ hours = 12 then 0
              else hours
            .cdate (jsMakeDay (qTrunc year) (qTrunc month - 1) (qTrunc day) * msPerDay
              + (qTrunc adjustedHours * 3600 + qTrunc minutes * 60 + qTrunc seconds) * 1000
              + 3 * msPerHour)
        | _, _, _, _, _, _ => .invalidDate

/-- A string-typed cell from `getChildText` (absent child → `null`). -/
def strCell (o : Option String) : CellV :=
  match o with
  | some s => .str s
  | none => .cnull

/-- `parseInt(getChildText(...))`: `parseInt(null)` stringifies `null`
to `"null"` and yields `NaN`. -/
def intCell (o : Option String) : CellV :=
  match o with
  | none => .nan
  | some s =>
      match jsParseInt s with
      | some n => .num n
      | none => .nan

/-- One output row of `importXMLFileDataCust`: the 31 mapped fields in
source order.  Array elements evaluate top to bottom, so the first
`convertToBoolean` applied to an absent child aborts the whole map. -/
def rowOfEntry (e : XmlEntry) : Except String (List CellV) := do
  let b19 ← convertToBoolean (getChildText e "ControlaCredito")
  let b26 ← convertToBoolean (getChildText e "SF_Moroso")
  let b27 ← convertToBoolean (getChildText e "SF_Engestionjudicial")
  let b28 ← convertToBoolean (getChildText e "SF_Incobrable")
  let b31 ← convertToBoolean (getChildText e "Habilitado")
  .ok [ intCell (getChildText e "CodCliente"),
        strCell (getChildText e "RazonSocialdelCliente"),
        strCell (getChildText e "TipoDoc"),
        strCell (getChildText e "NroDocumento"),
        strCell (getChildText e "Direccion"),
        strCell (getChildText e "CodPostal"),
        strCell (getChildText e "Localidad"),
        strCell (getChildText e "Zona"),
        strCell (getChildText e "Provincia"),
        strCell (getChildText e "Pais"),
        strCell (getChildText e "TipodeCliente"),
        strCell (getChildText e "CategoriaCliente"),
        strCell (getChildText e "SubCategoriaCliente"),
        intCell (getChildText e "CodVendedor"),
        strCell (getChildText e "Vendedor"),
        strCell (getChildText e "ListadePrecios"),
        strCell (getChildText e "CondiciondeVentaPredeterminada"),
        strCell (getChildText e "SF_FechadeActualizacion"),
        .cbool b19,
        strCell (getChildText e "SF_CreditoMaximo"),
        strCell (getChildText e "SF_PenddeFacturar"),
        strCell (getChildText e "SF_ChequesenCartera"),
        strCell (getChildText e "SF_ChequesRechazados"),
        strCell (getChildText e "SF_CreditoaVencer"),
        strCell (getChildText e "SF_CreditoVencido"),
        .cbool b26,
        .cbool b27,
        .cbool b28,
        strCell (getChildText e "FechaUltimaCompra"),
        convertToDateTime (getChildText e "FechaUltModificacion"),
        .cbool b31 ]

/-- `importXMLFileDataCust(entries)`: clear the data rows below the
header, map every entry to its 31-cell row, write them from row 2.
Returns the map result (the data, or the thrown message) together with
the sheet as the function leaves it — note the clear happens before
the map, so a throw leaves the sheet cleared. -/
def importXMLFileDataCust (entries : List XmlEntry) (sheet : List (List CellV)) :
    Except String (List (List CellV)) × List (List CellV) :=
  let cleared := sheet.take 1
  match entries.mapM rowOfEntry with
  | .error e => (.error e, cleared)
  | .ok data =>
      if data.length > 0 then (.ok data, cleared ++ data)
      else (.ok [], cleared)

/-- SameValueZero, the equality a JS `Set` uses: `NaN` equals `NaN`,
primitives compare by value, objects (here `Date` cells) by reference
— two separately built `Date` objects are never the same element. -/
def cvSame : CellV → CellV → Bool
  | .num a, .num b => a = b
  | .nan, .nan => true
  | .str a, .str b => a = b
  | .cbool a, .cbool b => a = b
  | .cnull, .cnull => true
  | _, _ => false

/-- `findDuplicatesCust(values)`: single pass with a seen set and a
duplicate set; returns the duplicated values in the order they first
repeated. -/
def findDuplicatesCust (values : List CellV) : List CellV :=
  (values.foldl
    (fun (acc : List CellV × List CellV) v =>
      if acc.1.any (cvSame v) then
        if acc.2.any (cvSame v) then acc else (acc.1, acc.2 ++ [v])
      else (acc.1 ++ [v], acc.2))
    ([], [])).2

/-- What `prepareAndImportXMLFileCust` reports back. -/
inductive ImportOutcome where
  | formatError
  | notConfirmed
  | completed (imported : Nat) (dups : Nat)
  | errorCaught (msg : String)
deriving DecidableEq, Repr

/-- The schema gate of `prepareAndImportXMLFileCust`:
`firstEntry && firstEntry.getChildren().length !== 31` — only the
first record's child count is inspected. -/
def custGateOk (entries : List XmlEntry) : Bool :=
  match entries.head? with
  | some firstEntry => (firstEntry : List (String × String)).length = 31
  | none => true

/-- `prepareAndImportXMLFileCust(file, ui)` after the XML has parsed
into `entries`: schema gate on the first record, user confirmation,
import, duplicate detection.  When duplicates exist the source calls
`highlightDuplicatesCust(sheetCust, duplicates)`, but `sheetCust` is
not bound in this function's scope (it is a local constant of
`importXMLFileDataCust`), so that call throws a `ReferenceError` which
lands in the catch branch: error alert, error log, return 0. -/
def prepareAndImportXMLFileCust (entries : List XmlEntry) (confirmYes : Bool)
    (sheet : List (List CellV)) : ImportOutcome × List (List CellV) :=
  if ¬ custGateOk entries then (.formatError, sheet)
  else if ¬ confirmYes then (.notConfirmed, sheet)
  else
    match importXMLFileDataCust entries sheet with
    | (.error e, sheet1) => (.errorCaught e, sheet1)
    | (.ok data, sheet1) =>
        let duplicates := findDuplicatesCust (data.map (fun row => row.headD .cnull))
        if duplicates.length > 0 then
          (.errorCaught "sheetCust is not defined", sheet1)
        else
          (.completed data.length duplicates.length, sheet1)

/-! ## Theorems -/

/-- Spec-side renderer for the refinement statement of the date claim:
read the seven civil fields of an instant with the plain UTC accessors
(no shift, no daylight-saving rule) and lay them out per format mode.
Written from the specification's wording, to be compared against
`formatDate` from the source. -/
def renderUTC (u : Int) (format : String) : String :=
  let day := jsPad2 (utcDay u)
  let month := jsPad2 (utcMonth u)
  let year := utcYear u
  let shortYear := jsLast2 year
  let hours := jsPad2 (utcHours u)
  let minutes := jsPad2 (utcMinutes u)
  let seconds := jsPad2 (utcSeconds u)
  let wd := (daysOfWeek.getD (utcWeekday u).toNat "")
  let mn := (monthNames.getD (utcMonth u - 1).toNat "")
  if format = "verbose" then
    wd ++ " " ++ day ++ " de " ++ mn ++ " de " ++ toString year
  else if format = "sheet" then
    toString year ++ "-" ++ month ++ "-" ++ day
  else if format = "api" then
    toString year ++ "/" ++ month ++ "/" ++ day
  else if format = "dateTime" then
    day ++ "/" ++ month ++ "/" ++ shortYear ++ " " ++ hours ++ ":" ++ minutes ++ ":" ++ seconds
  else if format = "verboseLong" then
    wd ++ " " ++ day ++ " de " ++ mn ++ " " ++ hours ++ ":" ++ minutes ++ ":" ++ seconds
  else if format = "dayColumn" then
    wd ++ " " ++ day ++ "/" ++ month ++ "/" ++ toString year
  else if format = "fullLong" then
    wd ++ " " ++ day ++ "-" ++ month ++ "-" ++ shortYear
  else if format = "time" then
    hours ++ ":" ++ minutes ++ ":" ++ seconds
  else if format = "fullLongWithTime" then
    wd ++ " " ++ day ++ "-" ++ month ++ "-" ++ shortYear ++ " " ++ hours ++ ":" ++ minutes ++ ":" ++ seconds
  else
    day ++ "/" ++ month ++ "/" ++ toString year

/-- C6.  `formatDate` is exactly the fixed civil-time projection: for
every instant and every format mode it first shifts the instant by
−3 hours and then reads all fields with the UTC accessors (no
daylight-saving rule anywhere); and on the instant 2024-03-15T02:00:00Z
the `'dateTime'` mode renders `"14/03/24 23:00:00"`. -/
theorem formatDate_is_utc_minus3_projection :
    (∀ (t : Int) (format : String),
      formatDate t format = renderUTC (t - 3 * msPerHour) format)
    ∧ formatDate (daysFromCivil 2024 3 15 * msPerDay + 2 * msPerHour) "dateTime"
        = "14/03/24 23:00:00" := by
  constructor
  · intro t format
    rfl
  · rfl

/-- The spec's worked spread example: oficial venta 1000, blue venta
1500, no `bolsa`/`cripto`/`mayorista` entries. -/
def spreadExample : List ApiEntry :=
  [ ⟨"oficial", .num 900, .num 1000, some "2024-03-15", some "2024-03-15T12:00:00"⟩,
    ⟨"blue", .num 1400, .num 1500, some "2024-03-15", some "2024-03-15T12:00:00"⟩ ]

/-- A payload whose `oficial` entry carries a non-numeric `compra`. -/
def nonNumericPayload : List ApiEntry :=
  [ ⟨"oficial", .str "abc", .num 1, none, none⟩ ]

/-- An entry whose `casa` matches none of the five picked names. -/
def unmatchedEntry : ApiEntry := ⟨"otro", .num 5, .num 6, none, none⟩

/-- C2 counterexample.  The claim says both normalizers compute the
spread as the raw ratio `(blue.venta − x.venta) / x.venta` (so `0.5`
on the 1000/1500 example).  `processCurrentApiData` actually multiplies
by 100: on that payload it produces `50`, not `0.5`. -/
theorem processCurrentApiData_spread_is_times_100 :
    (processCurrentApiData spreadExample "2024-03-15T12:00:00").blueOficialBreach
      = .fin 50
    ∧ (processCurrentApiData spreadExample "2024-03-15T12:00:00").blueOficialBreach
      ≠ .fin (1 / 2) := by
  have h1 : (processCurrentApiData spreadExample "2024-03-15T12:00:00").blueOficialBreach
      = .fin 50 := by
    simp +decide [processCurrentApiData, findValue, spreadExample, jvParseFloat,
      JSNum.sub, JSNum.div, JSNum.mul]
    norm_num
  refine ⟨h1, ?_⟩
  rw [h1]
  intro hc
  have : (50 : ℚ) = 1 / 2 := by injection hc
  norm_num at this

/-- If `findValue` reports a finite `venta` for a name, the historical
normalizer's `parseFloat(entry?.venta) || 0` agrees with it. -/
theorem findValue_fin_histField (data : List ApiEntry) (c : String) (q : ℚ)
    (h : (findValue data c).2 = .fin q) :
    histField (data.find? (fun d => d.casa = c)) (·.venta) = q := by
  cases hf : data.find? (fun d => d.casa = c) with
  | none =>
      have h0 : (findValue data c).2 = .fin 0 := by simp [findValue, hf]
      rw [h0] at h
      have hq : (0 : ℚ) = q := by injection h
      simp [histField, hf, jsOr0, ← hq]
  | some e =>
      have h0 : (findValue data c).2 = jvParseFloat e.venta := by simp [findValue, hf]
      rw [h0] at h
      simp [histField, hf, h, jsOr0]

/-- C2 amended.  Only `processHistoricalApiData` computes the spreads
as the zero-guarded raw ratio; `processCurrentApiData` computes the
same ratio multiplied by 100 with no zero guard (an infinity when the
denominator is zero and the numerator positive).  On the example
payload the historical normalizer therefore yields `1/2` and the
current one `50`. -/
theorem spread_computation_amended (data : List ApiEntry) (iso : String) (bq oq mq : ℚ)
    (hb : (findValue data "blue").2 = .fin bq)
    (ho : (findValue data "oficial").2 = .fin oq)
    (hm : (findValue data "bolsa").2 = .fin mq) :
    (processHistoricalApiData data iso).blueOficialBreach
        = (if oq = 0 then 0 else (bq - oq) / oq)
    ∧ (processHistoricalApiData data iso).blueMepBreach
        = (if mq = 0 then 0 else (bq - mq) / mq)
    ∧ (oq ≠ 0 → (processCurrentApiData data iso).blueOficialBreach
        = .fin ((bq - oq) / oq * 100))
    ∧ (oq = 0 → 0 < bq → (processCurrentApiData data iso).blueOficialBreach = .posInf)
    ∧ (mq ≠ 0 → (processCurrentApiData data iso).blueMepBreach
        = .fin ((bq - mq) / mq * 100)) := by
  have hb' := findValue_fin_histField data "blue" bq hb
  have ho' := findValue_fin_histField data "oficial" oq ho
  have hm' := findValue_fin_histField data "bolsa" mq hm
  refine ⟨?_, ?_, ?_, ?_, ?_⟩
  · simp only [processHistoricalApiData, hb', ho']
    by_cases hz : oq = 0 <;> simp [hz]
  · simp only [processHistoricalApiData, hb', hm']
    by_cases hz : mq = 0 <;> simp [hz]
  · intro hz
    simp only [processCurrentApiData, hb, ho]
    simp [JSNum.sub, JSNum.div, JSNum.mul, hz, div_mul_eq_mul_div]
  · intro hz hpos
    simp only [processCurrentApiData, hb, ho]
    simp [JSNum.sub, JSNum.div, JSNum.mul, hz, sub_pos.mpr, hpos]
  · intro hz
    simp only [processCurrentApiData, hb, hm]
    simp [JSNum.sub, JSNum.div, JSNum.mul, hz, div_mul_eq_mul_div]

/-- Witness for the amended spread theorem at the worked example. -/
theorem spread_computation_amended_witness :
    (processHistoricalApiData spreadExample "X").blueOficialBreach = 1 / 2
    ∧ (processCurrentApiData spreadExample "X").blueOficialBreach
        = .fin ((1500 - 1000) / 1000 * 100) := by
  have h := spread_computation_amended spreadExample "X" 1500 1000 0
    (by decide) (by decide) (by decide)
  refine ⟨?_, h.2.2.1 (by norm_num)⟩
  have h1 := h.1
  norm_num at h1
  exact h1

/-- C3 counterexample.  The claim says both normalizers coerce any
non-numeric `compra`/`venta` to 0.  `processCurrentApiData` has no
`|| 0` guard: a present entry with non-numeric `compra` produces `NaN`,
not `0`. -/
theorem processCurrentApiData_nonnumeric_is_nan :
    (processCurrentApiData nonNumericPayload "X").oficialCompra = .nan
    ∧ (processCurrentApiData nonNumericPayload "X").oficialCompra ≠ .fin 0 := by
  have h1 : (processCurrentApiData nonNumericPayload "X").oficialCompra = .nan := by
    simp +decide [processCurrentApiData, findValue, nonNumericPayload, jvParseFloat]
  exact ⟨h1, by rw [h1]; intro hc; exact JSNum.noConfusion hc⟩

/-- Appending an entry with an unmatched name does not change a
`find?` for one of the picked names. -/
theorem find?_append_unmatched (data : List ApiEntry) (e : ApiEntry) (c : String)
    (h : e.casa ≠ c) :
    (data ++ [e]).find? (fun d => d.casa = c) = data.find? (fun d => d.casa = c) := by
  rw [List.find?_append]
  have h1 : ([e].find? (fun d => d.casa = c)) = none := by
    simp [List.find?, h]
  rw [h1, Option.or_none]

/-- The head of a nonempty list survives appending. -/
theorem head?_append_of_ne_nil {α : Type} (data : List α) (l : List α)
    (h : data ≠ []) : (data ++ l).head? = data.head? := by
  cases data with
  | nil => exact absurd rfl h
  | cons a t => simp

/-- C3 amended.  Both normalizers pick the five named entries, ignore
unmatched names and map missing names to `{0, 0}` (in particular a
payload without `cripto` yields zero cripto fields and no error);
`processHistoricalApiData` coerces non-numeric price values to `0`,
while `processCurrentApiData` leaves them as `NaN`. -/
theorem normalizer_totality_amended (data : List ApiEntry) (iso : String) (e : ApiEntry) :
    ((∀ a ∈ data, a.casa ≠ "cripto") →
      (processCurrentApiData data iso).criptoCompra = .fin 0
      ∧ (processCurrentApiData data iso).criptoVenta = .fin 0
      ∧ (processHistoricalApiData data iso).criptoCompra = 0
      ∧ (processHistoricalApiData data iso).criptoVenta = 0)
    ∧ (∀ a, data.find? (fun d => d.casa = "oficial") = some a →
        jvParseFloat a.compra = .nan →
        (processHistoricalApiData data iso).oficialCompra = 0
        ∧ (processCurrentApiData data iso).oficialCompra = .nan)
    ∧ (data ≠ [] →
        e.casa ∉ (["oficial", "blue", "bolsa", "cripto", "mayorista"] : List String) →
        processCurrentApiData (data ++ [e]) iso = processCurrentApiData data iso
        ∧ processHistoricalApiData (data ++ [e]) iso = processHistoricalApiData data iso) := by
  refine ⟨?_, ?_, ?_⟩
  · intro hnc
    have hf : data.find? (fun d => d.casa = "cripto") = none := by
      rw [List.find?_eq_none]
      intro x hx
      simpa using hnc x hx
    refine ⟨?_, ?_, ?_, ?_⟩ <;>
      simp [processCurrentApiData, processHistoricalApiData, findValue, histField, hf, jsOr0]
  · intro a hfind hnan
    constructor
    · simp [processHistoricalApiData, histField, hfind, hnan, jsOr0]
    · simp [processCurrentApiData, findValue, hfind, hnan]
  · intro hne hnot
    have h1 := find?_append_unmatched data e "oficial" (by intro h; exact hnot (by simp [h]))
    have h2 := find?_append_unmatched data e "blue" (by intro h; exact hnot (by simp [h]))
    have h3 := find?_append_unmatched data e "bolsa" (by intro h; exact hnot (by simp [h]))
    have h4 := find?_append_unmatched data e "cripto" (by intro h; exact hnot (by simp [h]))
    have h5 := find?_append_unmatched data e "mayorista" (by intro h; exact hnot (by simp [h]))
    have hh := head?_append_of_ne_nil data [e] hne
    constructor
    · simp only [processCurrentApiData, findValue, h1, h2, h3, h4, h5, hh]
    · simp only [processHistoricalApiData, histFecha, h1, h2, h3, h4, h5, hh]

/-- Witness for the amended normalizer theorem at a concrete payload
that simultaneously misses `cripto`, carries a non-numeric `oficial`
`compra` and is extended with an unmatched entry. -/
theorem normalizer_totality_amended_witness :
    (processCurrentApiData nonNumericPayload "X").criptoCompra = .fin 0
    ∧ (processHistoricalApiData nonNumericPayload "X").oficialCompra = 0
    ∧ processCurrentApiData (nonNumericPayload ++ [unmatchedEntry]) "X"
        = processCurrentApiData nonNumericPayload "X" := by
  have h := normalizer_totality_amended nonNumericPayload "X" unmatchedEntry
  exact ⟨(h.1 (by decide)).1,
         (h.2.1 ⟨"oficial", .str "abc", .num 1, none, none⟩ (by decide) (by decide)).1,
         (h.2.2 (by decide) (by decide)).1⟩

/-- C5 counterexample.  The claim says a calendrically invalid numeric
date such as day 31 in a 30-day month is rejected with a format error.
`parseCustomDate` builds `new Date(2024, 3, 31)`, which rolls over to
May 1 2024 and passes the `isNaN` check: the call succeeds. -/
theorem parseCustomDate_accepts_31_april :
    parseCustomDate "31/04/2024" 2025 = .ok (2024, 5, 1) := rfl

/-- C5 amended.  `parseCustomDate` accepts `dd/mm`, `dd/mm/yy`,
`dd/mm/yyyy` with `/` or `-`, defaults a missing year to the current
year and reads a two-digit year as 2000+yy; it throws exactly when the
token count is not 2 or 3 or some token fails to parse as a number —
numeric but calendrically invalid dates are rolled over by
`new Date(year, month, day)`, not rejected. -/
theorem parseCustomDate_amended (s : String) (cy : Int) :
    ((∃ e, parseCustomDate s cy = .error e) ↔
      (((splitDateTokens s).length < 2 ∨ (splitDateTokens s).length > 3)
        ∨ jsParseInt ((splitDateTokens s).getD 0 "") = none
        ∨ jsParseInt ((splitDateTokens s).getD 1 "") = none
        ∨ ((splitDateTokens s).length = 3
            ∧ jsParseInt ((splitDateTokens s).getD 2 "") = none)))
    ∧ (∀ d m : Int, (splitDateTokens s).length = 2 →
        jsParseInt ((splitDateTokens s).getD 0 "") = some d →
        jsParseInt ((splitDateTokens s).getD 1 "") = some m →
        parseCustomDate s cy = .ok (civilFromDays (jsMakeDay cy (m - 1) d)))
    ∧ (∀ d m y : Int, (splitDateTokens s).length = 3 →
        jsParseInt ((splitDateTokens s).getD 0 "") = some d →
        jsParseInt ((splitDateTokens s).getD 1 "") = some m →
        jsParseInt ((splitDateTokens s).getD 2 "") = some y →
        parseCustomDate s cy
          = .ok (civilFromDays (jsMakeDay (if y < 100 then y + 2000 else y) (m - 1) d))) := by
  refine ⟨?_, ?_, ?_⟩
  · by_cases hlen : (splitDateTokens s).length < 2 ∨ (splitDateTokens s).length > 3
    · constructor
      · intro _
        exact Or.inl hlen
      · intro _
        refine ⟨"Formato de fecha inválido. Use dd/mm o dd/mm/yy.", ?_⟩
        unfold parseCustomDate
        rw [if_pos hlen]
    · cases hd : jsParseInt ((splitDateTokens s).getD 0 "") with
      | none =>
          constructor
          · intro _
            exact Or.inr (Or.inl rfl)
          · intro _
            refine ⟨"Fecha inválida", ?_⟩
            unfold parseCustomDate
            rw [if_neg hlen, hd]
      | some d =>
          cases hm : jsParseInt ((splitDateTokens s).getD 1 "") with
          | none =>
              constructor
              · intro _
                exact Or.inr (Or.inr (Or.inl rfl))
              · intro _
                refine ⟨"Fecha inválida", ?_⟩
                unfold parseCustomDate
                rw [if_neg hlen, hd, hm]
          | some m =>
              by_cases h3 : (splitDateTokens s).length = 3
              · cases hy : jsParseInt ((splitDateTokens s).getD 2 "") with
                | none =>
                    constructor
                    · intro _
                      exact Or.inr (Or.inr (Or.inr ⟨h3, rfl⟩))
                    · intro _
                      refine ⟨"Fecha inválida", ?_⟩
                      unfold parseCustomDate
                      rw [if_neg hlen, hd, hm, if_pos h3, hy]
                      rfl
                | some y =>
                    have hok : parseCustomDate s cy
                        = .ok (civilFromDays
                            (jsMakeDay (if y < 100 then y + 2000 else y) (m - 1) d)) := by
                      unfold parseCustomDate
                      rw [if_neg hlen, hd, hm, if_pos h3, hy]
                      rfl
                    constructor
                    · rintro ⟨e, he⟩
                      rw [hok] at he
                      exact Except.noConfusion he
                    · rintro (h | h | h | ⟨_, h⟩)
                      · exact absurd h hlen
                      · exact Option.noConfusion h
                      · exact Option.noConfusion h
                      · exact Option.noConfusion h
              · have hok : parseCustomDate s cy
                    = .ok (civilFromDays (jsMakeDay cy (m - 1) d)) := by
                  unfold parseCustomDate
                  rw [if_neg hlen, hd, hm, if_neg h3]
                constructor
                · rintro ⟨e, he⟩
                  rw [hok] at he
                  exact Except.noConfusion he
                · rintro (h | h | h | ⟨h, _⟩)
                  · exact absurd h hlen
                  · exact Option.noConfusion h
                  · exact Option.noConfusion h
                  · exact absurd h h3
  · intro d m h2 hd hm
    have hlen : ¬((splitDateTokens s).length < 2 ∨ (splitDateTokens s).length > 3) := by omega
    have h3 : ¬(splitDateTokens s).length = 3 := by omega
    unfold parseCustomDate
    rw [if_neg hlen, hd, hm, if_neg h3]
  · intro d m y h3 hd hm hy
    have hlen : ¬((splitDateTokens s).length < 2 ∨ (splitDateTokens s).length > 3) := by omega
    unfold parseCustomDate
    rw [if_neg hlen, hd, hm, if_pos h3, hy]
    rfl

/-- Witness for the amended parsing theorem: a two-token date takes
the current year, and a two-digit year reads as 2000+yy. -/
theorem parseCustomDate_amended_witness :
    parseCustomDate "05/03" 2025 = .ok (civilFromDays (jsMakeDay 2025 (3 - 1) 5))
    ∧ parseCustomDate "5-3-24" 2025
        = .ok (civilFromDays
            (jsMakeDay (if (24 : Int) < 100 then 24 + 2000 else 24) (3 - 1) 5)) := by
  refine ⟨(parseCustomDate_amended "05/03" 2025).2.1 5 3 (by decide) (by decide) (by decide), ?_⟩
  exact (parseCustomDate_amended "5-3-24" 2025).2.2 5 3 24
    (by decide) (by decide) (by decide) (by decide)

/-- A character the stringifier leaves unescaped. -/
theorem jsonEscapeChar_id (c : Char) (hge : 32 ≤ c.toNat) (h1 : c ≠ '"')
    (h2 : c ≠ '\\') : jsonEscapeChar c = [c] := by
  unfold jsonEscapeChar
  rw [if_neg h1, if_neg h2,
    if_neg (fun hh : c = '\n' => by rw [hh] at hge; exact absurd hge (by decide)),
    if_neg (fun hh : c = '\t' => by rw [hh] at hge; exact absurd hge (by decide)),
    if_neg (fun hh : c = '\r' => by rw [hh] at hge; exact absurd hge (by decide)),
    if_neg (fun hh : c = '\x08' => by rw [hh] at hge; exact absurd hge (by decide)),
    if_neg (fun hh : c = '\x0c' => by rw [hh] at hge; exact absurd hge (by decide)),
    if_neg (by omega)]

/-- Unescaping an escaped quote. -/
theorem jsonUnescapeBody_escQuote (t : List Char) :
    jsonUnescapeBody ('\\' :: '"' :: t) = (jsonUnescapeBody t).map ('"' :: ·) := by
  rw [jsonUnescapeBody.eq_def]
  simp

/-- Unescaping an escaped backslash. -/
theorem jsonUnescapeBody_escBackslash (t : List Char) :
    jsonUnescapeBody ('\\' :: '\\' :: t) = (jsonUnescapeBody t).map ('\\' :: ·) := by
  rw [jsonUnescapeBody.eq_def]
  simp

/-- Unescaping an ordinary character. -/
theorem jsonUnescapeBody_plain (c : Char) (t : List Char) (h1 : c ≠ '"') (h2 : c ≠ '\\')
    (h3 : ¬ c.toNat < 32) :
    jsonUnescapeBody (c :: t) = (jsonUnescapeBody t).map (c :: ·) := by
  rw [jsonUnescapeBody.eq_def]
  simp only []
  rw [if_neg h1, if_neg h2, if_neg h3]

/-- The closing quote ends the literal. -/
theorem jsonUnescapeBody_close : jsonUnescapeBody ['"'] = some [] := by
  rw [jsonUnescapeBody.eq_def]
  simp

/-- Unescaping undoes escaping on the body of a string literal, for
strings without raw control characters. -/
theorem jsonUnescapeBody_escape (cs : List Char) (h : ∀ c ∈ cs, 32 ≤ c.toNat) :
    jsonUnescapeBody (cs.flatMap jsonEscapeChar ++ ['"']) = some cs := by
  induction cs with
  | nil => simpa using jsonUnescapeBody_close
  | cons c cs ih =>
      have hc : 32 ≤ c.toNat := h c (List.mem_cons_self c cs)
      have ih' := ih (fun x hx => h x (List.mem_cons_of_mem c hx))
      by_cases h1 : c = '"'
      · subst h1
        rw [List.flatMap_cons, show jsonEscapeChar '"' = ['\\', '"'] by decide]
        simp only [List.append_assoc, List.cons_append, List.nil_append]
        rw [jsonUnescapeBody_escQuote, ih']
        rfl
      · by_cases h2 : c = '\\'
        · subst h2
          rw [List.flatMap_cons, show jsonEscapeChar '\\' = ['\\', '\\'] by decide]
          simp only [List.append_assoc, List.cons_append, List.nil_append]
          rw [jsonUnescapeBody_escBackslash, ih']
          rfl
        · rw [List.flatMap_cons, jsonEscapeChar_id c hc h1 h2]
          simp only [List.append_assoc, List.cons_append, List.nil_append]
          rw [jsonUnescapeBody_plain c _ h1 h2 (by omega), ih']
          rfl

/-- `JSON.parse ∘ JSON.stringify` is the identity on cacheable strings
without raw control characters. -/
theorem jsonParseStr_stringify (s : String) (h : ∀ c ∈ s.toList, 32 ≤ c.toNat) :
    jsonParseStr (jsonStringifyStr s) = .ok s := by
  unfold jsonParseStr jsonStringifyStr
  show (match '"' :: (s.toList.flatMap jsonEscapeChar ++ ['"']) with
        | '"' :: rest =>
            match jsonUnescapeBody rest with
            | some cs => Except.ok (⟨cs⟩ : String)
            | none => Except.error "SyntaxError: Unexpected token in JSON"
        | _ => Except.error "SyntaxError: Unexpected token in JSON") = Except.ok s
  simp only [jsonUnescapeBody_escape s.toList h]
  rfl

/-- C7 counterexample.  The claim says `getCachedOrFetch` returns
`null` and never throws on a transport failure.  It has no try/catch:
on a cache miss a failing `UrlFetchApp.fetch` propagates its exception
to the caller instead of producing a null result. -/
theorem getCachedOrFetch_propagates_fetch_errors :
    getCachedOrFetch ⟨[]⟩ (fun _ => .error "DNS error") API_CURRENT 0
      = .error "DNS error" := rfl

/-- C7 amended.  On a cache hit within the TTL, `getCachedOrFetch`
returns the cached payload with no network fetch and no cache change;
on a miss it performs exactly one fetch and caches the stringified raw
text under the default 3600-second TTL; but a transport failure or
non-success response makes the external fetch throw and the exception
propagates out of `getCachedOrFetch` — the conversion to `null` lives
in its caller `fetchDataFromApis`. -/
theorem http_cache_client_amended (cache : CacheState)
    (net : String → Except String String) (url : String) (now : Int)
    (text e : String) (decode : String → Except String (List ApiEntry))
    (date : Int) (apiType : String) :
    ((cacheGet cache url now = some (jsonStringifyStr text)) →
      (∀ c ∈ text.toList, 32 ≤ c.toNat) →
      getCachedOrFetch cache net url now = .ok (text, cache, 0))
    ∧ (cacheGet cache url now = none → net url = .ok text →
        getCachedOrFetch cache net url now
          = .ok (text, cachePut cache url (jsonStringifyStr text) 3600 now, 1)
        ∧ ∀ now2 : Int, now2 < now + 3600 * 1000 →
            cacheGet (cachePut cache url (jsonStringifyStr text) 3600 now) url now2
              = some (jsonStringifyStr text))
    ∧ (cacheGet cache url now = none → net url = .error e →
        getCachedOrFetch cache net url now = .error e)
    ∧ (cacheGet cache (fetchUrlFor date apiType) now = none →
        net (fetchUrlFor date apiType) = .error e →
        fetchDataFromApis decode cache net date apiType now = (none, cache)) := by
  refine ⟨?_, ?_, ?_, ?_⟩
  · intro hhit hchars
    unfold getCachedOrFetch
    rw [hhit]
    simp only []
    rw [jsonParseStr_stringify text hchars]
    rfl
  · intro hmiss hok
    constructor
    · unfold getCachedOrFetch
      rw [hmiss, hok]
    · intro now2 hn2
      have hn2' : now2 < now + 3600000 := by omega
      simp [cacheGet, cachePut, List.find?, hn2']
  · intro hmiss herr
    unfold getCachedOrFetch
    rw [hmiss, herr]
  · intro hmiss herr
    unfold fetchDataFromApis getCachedOrFetch
    rw [hmiss, herr]

/-- Witness for the amended cache-client theorem: a concrete hit
serves the cached text with zero fetches, and a concrete failing fetch
surfaces as an error from `getCachedOrFetch` but as `none` from
`fetchDataFromApis`. -/
theorem http_cache_client_amended_witness :
    getCachedOrFetch (cachePut ⟨[]⟩ API_CURRENT (jsonStringifyStr "payload") 3600 0)
        (fun _ => .error "down") API_CURRENT 10 = .ok ("payload",
          cachePut ⟨[]⟩ API_CURRENT (jsonStringifyStr "payload") 3600 0, 0)
    ∧ fetchDataFromApis (fun _ => .ok []) ⟨[]⟩ (fun _ => .error "down") 0 "current" 0
        = (none, ⟨[]⟩) := by
  constructor
  · exact (http_cache_client_amended
      (cachePut ⟨[]⟩ API_CURRENT (jsonStringifyStr "payload") 3600 0)
      (fun _ => .error "down") API_CURRENT 10 "payload" "down"
      (fun _ => .ok []) 0 "current").1 (by decide) (by decide)
  · exact (http_cache_client_amended ⟨[]⟩ (fun _ => .error "down") API_CURRENT 0
      "payload" "down" (fun _ => .ok []) 0 "current").2.2.2 (by decide) rfl

/-- A complete 31-field customer record (`CodCliente` 4521). -/
def custFields : XmlEntry :=
  [("CodCliente", "4521"), ("RazonSocialdelCliente", "ACME"), ("TipoDoc", "CUIT"),
   ("NroDocumento", "20-1"), ("Direccion", "Calle 1"), ("CodPostal", "1000"),
   ("Localidad", "CABA"), ("Zona", "Z1"), ("Provincia", "BA"), ("Pais", "AR"),
   ("TipodeCliente", "A"), ("CategoriaCliente", "B"), ("SubCategoriaCliente", "C"),
   ("CodVendedor", "7"), ("Vendedor", "Juan"), ("ListadePrecios", "L1"),
   ("CondiciondeVentaPredeterminada", "Contado"), ("SF_FechadeActualizacion", "01/01/2024"),
   ("ControlaCredito", "Verdadero"), ("SF_CreditoMaximo", "100"),
   ("SF_PenddeFacturar", "0"), ("SF_ChequesenCartera", "0"),
   ("SF_ChequesRechazados", "0"), ("SF_CreditoaVencer", "0"),
   ("SF_CreditoVencido", "0"), ("SF_Moroso", "Falso"),
   ("SF_Engestionjudicial", "Falso"), ("SF_Incobrable", "Falso"),
   ("FechaUltimaCompra", "01/02/2024"),
   ("FechaUltModificacion", "15/03/2024 10:30:45 a.m."), ("Habilitado", "Verdadero")]

/-- The same record with `CodCliente` 9999 and the `Pais` child
removed: 30 children, a schema deviation in a non-first record. -/
def cust30 : XmlEntry :=
  (("CodCliente", "9999") :: (custFields : List (String × String)).tail).filter
    (fun c => c.1 ≠ "Pais")

/-- The customer sheet before an import: just its header row. -/
def custSheet0 : List (List CellV) := [[.str "Campo 1"]]

/-- The output row `importXMLFileDataCust` builds from `custFields`. -/
def custRowA : List CellV :=
  [.num 4521, .str "ACME", .str "CUIT", .str "20-1", .str "Calle 1", .str "1000",
   .str "CABA", .str "Z1", .str "BA", .str "AR", .str "A", .str "B", .str "C",
   .num 7, .str "Juan", .str "L1", .str "Contado", .str "01/01/2024", .cbool true,
   .str "100", .str "0", .str "0", .str "0", .str "0", .str "0", .cbool false,
   .cbool false, .cbool false, .str "01/02/2024", .cdate 1710509445000, .cbool true]

set_option maxRecDepth 16000 in
/-- C8 counterexample.  The claim says any record whose child count
differs from 31 makes the import reject the whole file before any
write.  The gate only inspects the first record: a file whose second
record has 30 children imports completely — both rows are written and
the run reports success. -/
theorem prepareAndImport_checks_only_first_record :
    ((cust30 : List (String × String)).length ≠ 31)
    ∧ (prepareAndImportXMLFileCust [custFields, cust30] true custSheet0).1
        = .completed 2 0
    ∧ ((prepareAndImportXMLFileCust [custFields, cust30] true custSheet0).2).length
        = 3 := by
  refine ⟨by decide, ?_, ?_⟩
  · rfl
  · rfl

/-- C8 amended.  Only the first record's child-element count is
gated: when the first record has a child count other than 31 the file
is rejected as a format error before any row is written (the sheet is
untouched); deviations in later records are not checked. -/
theorem xml_gate_amended (entries : List XmlEntry) (e : XmlEntry) (conf : Bool)
    (sheet : List (List CellV)) (hhead : entries.head? = some e)
    (hne : (e : List (String × String)).length ≠ 31) :
    prepareAndImportXMLFileCust entries conf sheet = (.formatError, sheet) := by
  unfold prepareAndImportXMLFileCust custGateOk
  rw [hhead]
  simp [hne]

/-- Witness for the amended gate theorem: a file whose first record
has 30 children is rejected with the sheet unchanged. -/
theorem xml_gate_amended_witness :
    prepareAndImportXMLFileCust [cust30, custFields] true custSheet0
      = (.formatError, custSheet0) :=
  xml_gate_amended [cust30, custFields] cust30 true custSheet0 rfl (by decide)

/-- C9.  When the imported rows carry a duplicated `CodCliente`, the
highlighting call references the unbound identifier `sheetCust`; the
resulting `ReferenceError` lands in the catch branch (error alert, log,
return value 0) even though every row was already written to the
sheet. -/
theorem duplicate_highlight_hits_unbound_sheetCust (entries : List XmlEntry)
    (sheet data sheet1 : List (List CellV))
    (hgate : custGateOk entries = true)
    (himp : importXMLFileDataCust entries sheet = (.ok data, sheet1))
    (hdup : 0 < (findDuplicatesCust (data.map (fun row => row.headD .cnull))).length) :
    prepareAndImportXMLFileCust entries true sheet
      = (.errorCaught "sheetCust is not defined", sheet1)
    ∧ sheet1 = sheet.take 1 ++ data := by
  have hdata : data ≠ [] := by
    intro hnil
    rw [hnil] at hdup
    simp [findDuplicatesCust] at hdup
  have hsheet1 : sheet1 = sheet.take 1 ++ data := by
    unfold importXMLFileDataCust at himp
    cases hmap : entries.mapM rowOfEntry with
    | error msg =>
        rw [hmap] at himp
        simp only [] at himp
        simp only [Prod.mk.injEq] at himp
        exact absurd himp.1 (by simp)
    | ok data2 =>
        rw [hmap] at himp
        simp only [] at himp
        by_cases hlen : data2.length > 0
        · rw [if_pos hlen] at himp
          simp only [Prod.mk.injEq, Except.ok.injEq] at himp
          rw [← himp.2, himp.1]
        · rw [if_neg hlen] at himp
          simp only [Prod.mk.injEq, Except.ok.injEq] at himp
          exact absurd himp.1.symm (by simpa using hdata)
  constructor
  · unfold prepareAndImportXMLFileCust
    rw [hgate, himp]
    have hne : findDuplicatesCust (data.map (fun row => row.head?.getD CellV.cnull)) ≠ [] := by
      refine List.ne_nil_of_length_pos ?_
      simpa [List.headD_eq_head?_getD] using hdup
    simp [hne, List.headD_eq_head?_getD]
  · exact hsheet1

set_option maxRecDepth 16000 in
/-- Witness for the unbound-identifier theorem: two records sharing
`CodCliente` 4521 import both rows, then end in the error branch. -/
theorem duplicate_highlight_hits_unbound_sheetCust_witness :
    prepareAndImportXMLFileCust [custFields, custFields] true custSheet0
      = (.errorCaught "sheetCust is not defined", custSheet0.take 1 ++ [custRowA, custRowA]) := by
  exact (duplicate_highlight_hits_unbound_sheetCust [custFields, custFields] custSheet0
    [custRowA, custRowA] (custSheet0.take 1 ++ [custRowA, custRowA])
    rfl rfl (by decide)).1

/-- C4.  Whenever the range is invalid — start after end, or either
date outside `[2015-01-01, now]` — `updateHistoricalValues` hits a
validation throw before touching the sheet: the result carries an
error and the sheet is exactly the input sheet (zero writes). -/
theorem range_validation_atomicity (parseStr : String → Option Int)
    (sortFn : List (List CellV) → List (List CellV))
    (api : Int → Option (List ApiEntry)) (nowMs : Int) (iso : String)
    (sheet : List (List CellV)) (d1 d2 : Int)
    (h : d2 < d1 ∨ d1 < minDateMs ∨ nowMs < d1 ∨ d2 < minDateMs ∨ nowMs < d2) :
    (updateHistoricalValues parseStr sortFn api nowMs iso sheet d1 d2).sheet = sheet
    ∧ ∃ e, (updateHistoricalValues parseStr sortFn api nowMs iso sheet d1 d2).outcome
        = .error e := by
  have key : ∃ e, updateHistoricalValues parseStr sortFn api nowMs iso sheet d1 d2
      = ⟨sheet, .error e⟩ := by
    by_cases h1 : d1 < minDateMs ∨ d1 > nowMs
    · have hv : validateDateE d1 minDateMs nowMs
          = .error ("La fecha debe estar entre " ++ formatDate minDateMs "short" ++ " y "
              ++ formatDate nowMs "short") := by
        unfold validateDateE
        rw [if_pos h1]
      refine ⟨"La fecha debe estar entre " ++ formatDate minDateMs "short" ++ " y "
          ++ formatDate nowMs "short", ?_⟩
      unfold updateHistoricalValues
      rw [hv]
    · have hv1 : validateDateE d1 minDateMs nowMs = .ok () := by
        unfold validateDateE
        rw [if_neg h1]
      have h2 : d2 < d1 ∨ d2 > nowMs := by omega
      have hv2 : validateDateE d2 d1 nowMs
          = .error ("La fecha debe estar entre " ++ formatDate d1 "short" ++ " y "
              ++ formatDate nowMs "short") := by
        unfold validateDateE
        rw [if_pos h2]
      refine ⟨"La fecha debe estar entre " ++ formatDate d1 "short" ++ " y "
          ++ formatDate nowMs "short", ?_⟩
      unfold updateHistoricalValues
      rw [hv1]
      simp only []
      rw [hv2]
  obtain ⟨e, he⟩ := key
  rw [he]
  exact ⟨rfl, e, rfl⟩

/-- Witness for the validation-atomicity theorem: a call with the
start date one day after the end date errors out with the sheet
untouched. -/
theorem range_validation_atomicity_witness :
    (updateHistoricalValues (fun _ => none) id (fun _ => none)
        (minDateMs + 10 * msPerDay) "X" [[CellV.str "Fecha"]]
        (minDateMs + msPerDay) minDateMs).sheet = [[CellV.str "Fecha"]]
    ∧ ∃ e, (updateHistoricalValues (fun _ => none) id (fun _ => none)
        (minDateMs + 10 * msPerDay) "X" [[CellV.str "Fecha"]]
        (minDateMs + msPerDay) minDateMs).outcome = .error e :=
  range_validation_atomicity (fun _ => none) id (fun _ => none)
    (minDateMs + 10 * msPerDay) "X" [[CellV.str "Fecha"]]
    (minDateMs + msPerDay) minDateMs
    (Or.inl (by simp [msPerDay]))

/-- One step of the `rowsToUpdate.forEach` loop. -/
theorem applyRowUpdates_cons (u : Nat × List CellV) (rest : List (Nat × List CellV))
    (adds : List (List CellV)) (sheet : List (List CellV)) :
    applyRowUpdates (u :: rest) adds sheet =
      if 0 < u.1 ∧ u.1 ≤ sheet.length
      then applyRowUpdates rest adds (sheet.set (u.1 - 1) u.2)
      else applyRowUpdates rest (adds ++ [u.2]) sheet := by
  unfold applyRowUpdates
  rw [List.foldl_cons]
  by_cases h : 0 < u.1 ∧ u.1 ≤ sheet.length <;> simp [h]

/-- The in-place phase never changes the number of sheet rows. -/
theorem applyRowUpdates_sheet_length (updates : List (Nat × List CellV))
    (adds : List (List CellV)) (sheet : List (List CellV)) :
    (applyRowUpdates updates adds sheet).1.length = sheet.length := by
  induction updates generalizing adds sheet with
  | nil => rfl
  | cons u rest ih =>
      rw [applyRowUpdates_cons]
      by_cases h : 0 < u.1 ∧ u.1 ≤ sheet.length
      · rw [if_pos h, ih, List.length_set]
      · rw [if_neg h, ih]

/-- The final append list is the initial one plus the row of every
update whose index fell outside the sheet. -/
theorem applyRowUpdates_snd (updates : List (Nat × List CellV))
    (adds : List (List CellV)) (sheet : List (List CellV)) :
    (applyRowUpdates updates adds sheet).2
      = adds ++ (updates.filter
          (fun u => !(0 < u.1 ∧ u.1 ≤ sheet.length : Bool))).map (·.2) := by
  induction updates generalizing adds sheet with
  | nil => simp [applyRowUpdates]
  | cons u rest ih =>
      rw [applyRowUpdates_cons]
      by_cases h : 0 < u.1 ∧ u.1 ≤ sheet.length
      · rw [if_pos h, ih, List.filter_cons]
        simp [h, List.length_set]
      · rw [if_neg h, ih, List.filter_cons]
        simp [h]

/-- C10.  A queued update whose 1-based row index is not within the
sheet is redirected into the append list (and so written as a new row
by the bulk append) while remaining in the update list; the reported
counts are the update-list length and the post-redirect append-list
length, so one invalid update makes the two totals sum to more than
the number of days that produced data. -/
theorem invalid_update_double_count (updates : List (Nat × List CellV))
    (adds : List (List CellV)) (sheet : List (List CellV)) :
    ((applyRowUpdates updates adds sheet).2
      = adds ++ (updates.filter
          (fun u => !(0 < u.1 ∧ u.1 ≤ sheet.length : Bool))).map (·.2))
    ∧ (∀ u ∈ updates, ¬(0 < u.1 ∧ u.1 ≤ sheet.length) →
        u.2 ∈ (applyRowUpdates updates adds sheet).2)
    ∧ ((∃ u ∈ updates, ¬(0 < u.1 ∧ u.1 ≤ sheet.length)) →
        updates.length + (applyRowUpdates updates adds sheet).2.length
          > updates.length + adds.length)
    ∧ (∀ (parseStr : String → Option Int)
        (sortFn : List (List CellV) → List (List CellV))
        (api : Int → Option (List ApiEntry)) (nowMs : Int) (iso : String)
        (startDate endDate : Int),
        minDateMs ≤ startDate → startDate ≤ nowMs →
        startDate ≤ endDate → endDate ≤ nowMs → sheet ≠ [] →
        (updateHistoricalValues parseStr sortFn api nowMs iso sheet startDate endDate).outcome
          = .ok ((classifyDays parseStr api nowMs iso sheet (dayList startDate endDate)).1.length,
              (applyRowUpdates
                (classifyDays parseStr api nowMs iso sheet (dayList startDate endDate)).1
                (classifyDays parseStr api nowMs iso sheet (dayList startDate endDate)).2
                sheet).2.length)) := by
  refine ⟨applyRowUpdates_snd updates adds sheet, ?_, ?_, ?_⟩
  · intro u hu hinv
    rw [applyRowUpdates_snd]
    refine List.mem_append_right _ ?_
    refine List.mem_map.mpr ⟨u, ?_, rfl⟩
    refine List.mem_filter.mpr ⟨hu, ?_⟩
    simp
    omega
  · rintro ⟨u, hu, hinv⟩
    rw [applyRowUpdates_snd, List.length_append, List.length_map]
    have hpos : 0 < (updates.filter
        (fun u => !(0 < u.1 ∧ u.1 ≤ sheet.length : Bool))).length := by
      refine List.length_pos.mpr ?_
      intro hnil
      have : u ∈ updates.filter (fun u => !(0 < u.1 ∧ u.1 ≤ sheet.length : Bool)) :=
        List.mem_filter.mpr ⟨hu, by simp; omega⟩
      rw [hnil] at this
      exact List.not_mem_nil u this
    omega
  · intro parseStr sortFn api nowMs iso startDate endDate hmin hnow hse hend hne
    have hv1 : validateDateE startDate minDateMs nowMs = .ok () := by
      unfold validateDateE
      rw [if_neg (by omega)]
    have hv2 : validateDateE endDate startDate nowMs = .ok () := by
      unfold validateDateE
      rw [if_neg (by omega)]
    have hget : getSheetDataE sheet = .ok sheet := by
      cases sheet with
      | nil => exact absurd rfl hne
      | cons a t => rfl
    unfold updateHistoricalValues
    rw [hv1]
    simp only []
    rw [hv2]
    simp only []
    rw [hget]

/-- Witness for the double-count theorem: one update queued at row 5
of a two-row sheet is redirected and makes the totals sum to 2 for a
single processed day. -/
theorem invalid_update_double_count_witness :
    ([((5 : Nat), [CellV.str "X"])].length
        + (applyRowUpdates [((5 : Nat), [CellV.str "X"])] []
            [[CellV.str "H"], [CellV.str "A"]]).2.length)
      > ([((5 : Nat), [CellV.str "X"])].length
          + ([] : List (List CellV)).length) :=
  (invalid_update_double_count [((5 : Nat), [CellV.str "X"])] []
    [[CellV.str "H"], [CellV.str "A"]]).2.2.1
    ⟨(5, [CellV.str "X"]), by simp, by simp⟩

/-- A one-day range visits exactly its single day. -/
theorem dayList_single (d : Int) : dayList d d = [d] := by
  rw [dayList]
  rw [dif_pos le_rfl]
  rw [dayList]
  rw [dif_neg (by simp only [msPerDay]; omega)]

/-- `classifyDays` over a single day with an available payload. -/
theorem classifyDays_single (parseStr : String → Option Int)
    (api : Int → Option (List ApiEntry)) (nowMs : Int) (iso : String)
    (existing : List (List CellV)) (d : Int) (pl : List ApiEntry)
    (hapi : api d = some pl) :
    classifyDays parseStr api nowMs iso existing [d] =
      (if (existing.map (rowKey parseStr)).contains (formatDate d "sheet") then
        ([(existing.findIdx
            (fun r => rowKey parseStr r = formatDate d "sheet") + 1,
          prepareHistoricalRowData d pl nowMs iso)], [])
      else ([], [prepareHistoricalRowData d pl nowMs iso])) := by
  unfold classifyDays
  rw [hapi]
  unfold classifyDays
  by_cases hc : (existing.map (rowKey parseStr)).contains (formatDate d "sheet") <;>
    simp [hc]

/-- `l.set n l[n] = l`. -/
theorem list_set_getElem_self {α : Type} : ∀ (l : List α) (n : Nat) (h : n < l.length),
    l.set n l[n] = l
  | _ :: _, 0, _ => rfl
  | a :: t, n + 1, h => by
      simp only [List.set, List.getElem_cons_succ]
      rw [list_set_getElem_self t n (by simpa using h)]

/-- Re-sorting below the header permutes the rows. -/
theorem sortKeepHeader_perm (sortFn : List (List CellV) → List (List CellV))
    (hs : ∀ l, (sortFn l).Perm l) (sheet : List (List CellV)) :
    (sortKeepHeader sortFn sheet).Perm sheet := by
  cases sheet with
  | nil => exact List.Perm.refl _
  | cons h t => exact List.Perm.cons h (hs t)

/-- One full `updateHistoricalValues` run over the single-day range
`[d, d]` with valid dates, a nonempty sheet and an available payload:
the day is either matched by key and written in place, or appended. -/
theorem updateHistoricalValues_single (parseStr : String → Option Int)
    (sortFn : List (List CellV) → List (List CellV))
    (api : Int → Option (List ApiEntry)) (nowMs : Int) (iso : String)
    (sheet : List (List CellV)) (d : Int) (pl : List ApiEntry)
    (hmin : minDateMs ≤ d) (hmax : d ≤ nowMs)
    (hapi : api d = some pl) (hne : sheet ≠ []) :
    updateHistoricalValues parseStr sortFn api nowMs iso sheet d d =
      (if (sheet.map (rowKey parseStr)).contains (formatDate d "sheet") then
        ⟨sortKeepHeader sortFn
          (sheet.set
            (sheet.findIdx (fun r => rowKey parseStr r = formatDate d "sheet"))
            (prepareHistoricalRowData d pl nowMs iso)),
         .ok (1, 0)⟩
      else
        ⟨sortKeepHeader sortFn (sheet ++ [prepareHistoricalRowData d pl nowMs iso]),
         .ok (0, 1)⟩) := by
  have hv1 : validateDateE d minDateMs nowMs = .ok () := by
    unfold validateDateE
    rw [if_neg (by omega)]
  have hv2 : validateDateE d d nowMs = .ok () := by
    unfold validateDateE
    rw [if_neg (by omega)]
  have hget : getSheetDataE sheet = .ok sheet := by
    cases sheet with
    | nil => exact absurd rfl hne
    | cons a t => rfl
  unfold updateHistoricalValues
  rw [hv1]
  simp only []
  rw [hv2]
  simp only []
  rw [hget]
  simp only []
  rw [dayList_single, classifyDays_single parseStr api nowMs iso sheet d pl hapi]
  by_cases hc : (sheet.map (rowKey parseStr)).contains (formatDate d "sheet")
  · rw [if_pos hc, if_pos hc]
    have hmem : formatDate d "sheet" ∈ sheet.map (rowKey parseStr) :=
      List.elem_iff.mp hc
    obtain ⟨r, hr, hkr⟩ := List.mem_map.mp hmem
    have hidx : sheet.findIdx
        (fun r => rowKey parseStr r = formatDate d "sheet") < sheet.length := by
      refine List.findIdx_lt_length_of_exists ⟨r, hr, ?_⟩
      simp [hkr]
    rw [applyRowUpdates_cons]
    rw [if_pos (by constructor <;> omega)]
    simp [applyRowUpdates]
  · rw [if_neg hc, if_neg hc]
    simp [applyRowUpdates]

/-- Replacing the matched row with a row carrying the same sortable
key leaves the sheet's key column unchanged. -/
theorem keys_after_matched_update (parseStr : String → Option Int)
    (sheet : List (List CellV)) (key : String) (row : List CellV)
    (hkrow : rowKey parseStr row = key)
    (hmem : key ∈ sheet.map (rowKey parseStr)) :
    (sheet.set (sheet.findIdx (fun r => rowKey parseStr r = key)) row).map
        (rowKey parseStr)
      = sheet.map (rowKey parseStr) := by
  obtain ⟨r, hr, hkr⟩ := List.mem_map.mp hmem
  have hidx : sheet.findIdx (fun r => rowKey parseStr r = key) < sheet.length := by
    refine List.findIdx_lt_length_of_exists ⟨r, hr, ?_⟩
    simp [hkr]
  have hlt : sheet.findIdx (fun r => rowKey parseStr r = key)
      < (sheet.map (rowKey parseStr)).length := by simpa using hidx
  rw [List.map_set, hkrow]
  have hfin : (sheet.map (rowKey parseStr))[sheet.findIdx
      (fun r => rowKey parseStr r = key)] = key := by
    rw [List.getElem_map]
    have hp := @List.findIdx_getElem _ (fun r => decide (rowKey parseStr r = key)) sheet hidx
    simpa using hp
  calc (sheet.map (rowKey parseStr)).set
          (sheet.findIdx (fun r => rowKey parseStr r = key)) key
      = (sheet.map (rowKey parseStr)).set
          (sheet.findIdx (fun r => rowKey parseStr r = key))
          ((sheet.map (rowKey parseStr))[sheet.findIdx
            (fun r => rowKey parseStr r = key)]) := by rw [hfin]
    _ = sheet.map (rowKey parseStr) := list_set_getElem_self _ _ hlt

/-- A single-day run whose key already exists in the sheet: the result
reports one in-place update and no append, keeps the row count, and
permutes (hence preserves) the key column. -/
theorem updateHistoricalValues_matched (parseStr : String → Option Int)
    (sortFn : List (List CellV) → List (List CellV))
    (hsort : ∀ l, (sortFn l).Perm l)
    (api : Int → Option (List ApiEntry)) (nowMs : Int) (iso : String)
    (d : Int) (pl : List ApiEntry) (hapi : api d = some pl)
    (hmin : minDateMs ≤ d) (hmax : d ≤ nowMs)
    (s : List (List CellV)) (hne : s ≠ [])
    (hmem : formatDate d "sheet" ∈ s.map (rowKey parseStr))
    (hrt : rowKey parseStr (prepareHistoricalRowData d pl nowMs iso)
            = formatDate d "sheet") :
    (updateHistoricalValues parseStr sortFn api nowMs iso s d d).outcome = .ok (1, 0)
    ∧ (updateHistoricalValues parseStr sortFn api nowMs iso s d d).sheet.length
        = s.length
    ∧ ((updateHistoricalValues parseStr sortFn api nowMs iso s d d).sheet.map
        (rowKey parseStr)).Perm (s.map (rowKey parseStr)) := by
  rw [updateHistoricalValues_single parseStr sortFn api nowMs iso s d pl hmin hmax hapi hne]
  have hc : (s.map (rowKey parseStr)).contains (formatDate d "sheet") = true :=
    List.elem_iff.mpr hmem
  rw [if_pos hc]
  refine ⟨rfl, ?_, ?_⟩
  · have hp := sortKeepHeader_perm sortFn hsort
      (s.set (s.findIdx (fun r => rowKey parseStr r = formatDate d "sheet"))
        (prepareHistoricalRowData d pl nowMs iso))
    simp only []
    rw [hp.length_eq, List.length_set]
  · have hp := (sortKeepHeader_perm sortFn hsort
      (s.set (s.findIdx (fun r => rowKey parseStr r = formatDate d "sheet"))
        (prepareHistoricalRowData d pl nowMs iso))).map (rowKey parseStr)
    simp only []
    refine hp.trans ?_
    rw [keys_after_matched_update parseStr s (formatDate d "sheet")
      (prepareHistoricalRowData d pl nowMs iso) hrt hmem]

/-- C1.  Idempotent upsert on a single day: with unchanged API data,
after one run of `updateHistoricalValues` over `[d, d]` the second run
matches d's row by the sortable key recovered from the stored first
cell, updates it in place (reporting one update, zero appends), leaves
the row count unchanged, and both runs preserve at-most-one-row-per-key
(given the stored label round-trips through the store's date parsing,
which is implementation-defined for the host and therefore a
hypothesis). -/
theorem single_day_upsert_idempotent (parseStr : String → Option Int)
    (sortFn : List (List CellV) → List (List CellV))
    (hsort : ∀ l, (sortFn l).Perm l)
    (api : Int → Option (List ApiEntry)) (nowMs d : Int) (iso : String)
    (pl : List ApiEntry) (hapi : api d = some pl)
    (sheet : List (List CellV)) (hne : sheet ≠ [])
    (hmin : minDateMs ≤ d) (hmax : d ≤ nowMs)
    (hrt : rowKey parseStr (prepareHistoricalRowData d pl nowMs iso)
            = formatDate d "sheet")
    (hnodup : (sheet.map (rowKey parseStr)).Nodup) :
    (updateHistoricalValues parseStr sortFn api nowMs iso
        (updateHistoricalValues parseStr sortFn api nowMs iso sheet d d).sheet d d).outcome
      = .ok (1, 0)
    ∧ (updateHistoricalValues parseStr sortFn api nowMs iso
        (updateHistoricalValues parseStr sortFn api nowMs iso sheet d d).sheet d d).sheet.length
      = (updateHistoricalValues parseStr sortFn api nowMs iso sheet d d).sheet.length
    ∧ ((updateHistoricalValues parseStr sortFn api nowMs iso sheet d d).sheet.map
        (rowKey parseStr)).Nodup
    ∧ ((updateHistoricalValues parseStr sortFn api nowMs iso
        (updateHistoricalValues parseStr sortFn api nowMs iso sheet d d).sheet d d).sheet.map
        (rowKey parseStr)).Nodup := by
  have run1 :
      ((updateHistoricalValues parseStr sortFn api nowMs iso sheet d d).sheet ≠ [])
      ∧ formatDate d "sheet"
          ∈ (updateHistoricalValues parseStr sortFn api nowMs iso sheet d d).sheet.map
            (rowKey parseStr)
      ∧ ((updateHistoricalValues parseStr sortFn api nowMs iso sheet d d).sheet.map
          (rowKey parseStr)).Nodup := by
    by_cases hc : formatDate d "sheet" ∈ sheet.map (rowKey parseStr)
    · obtain ⟨-, hlen, hperm⟩ := updateHistoricalValues_matched parseStr sortFn hsort
        api nowMs iso d pl hapi hmin hmax sheet hne hc hrt
      refine ⟨?_, ?_, ?_⟩
      · intro hnil
        rw [hnil] at hlen
        exact hne (List.eq_nil_of_length_eq_zero hlen.symm)
      · exact hperm.mem_iff.mpr hc
      · exact hperm.nodup_iff.mpr hnodup
    · rw [updateHistoricalValues_single parseStr sortFn api nowMs iso sheet d pl
        hmin hmax hapi hne]
      have hcb : ¬((sheet.map (rowKey parseStr)).contains (formatDate d "sheet") = true) :=
        fun h => hc (List.elem_iff.mp h)
      rw [if_neg hcb]
      simp only []
      have hperm := (sortKeepHeader_perm sortFn hsort
        (sheet ++ [prepareHistoricalRowData d pl nowMs iso])).map (rowKey parseStr)
      have hkeys : (sheet ++ [prepareHistoricalRowData d pl nowMs iso]).map
          (rowKey parseStr) = sheet.map (rowKey parseStr) ++ [formatDate d "sheet"] := by
        rw [List.map_append]
        simp [hrt]
      rw [hkeys] at hperm
      refine ⟨?_, ?_, ?_⟩
      · intro hnil
        have := hperm.length_eq
        rw [hnil] at this
        simp at this
      · exact hperm.mem_iff.mpr (List.mem_append_right _ (List.mem_singleton.mpr rfl))
      · refine hperm.nodup_iff.mpr ?_
        rw [List.nodup_append]
        refine ⟨hnodup, List.nodup_singleton _, ?_⟩
        intro x hx hx1
        rw [List.mem_singleton.mp hx1] at hx
        exact hc hx
  obtain ⟨hne1, hmem1, hnodup1⟩ := run1
  obtain ⟨hout2, hlen2, hperm2⟩ := updateHistoricalValues_matched parseStr sortFn hsort
    api nowMs iso d pl hapi hmin hmax _ hne1 hmem1 hrt
  exact ⟨hout2, hlen2, hnodup1, hperm2.nodup_iff.mpr hnodup1⟩

/-- A concrete instantiation of the host's implementation-defined
date-string parsing, used by the witness: it reads the engine's own
`'dayColumn'` labels (`Weekday dd/mm/yyyy`) back to the civil midnight
of that date (shifted +3h so the −3h projection recovers the date). -/
def witnessLabelParse (s : String) : Option Int :=
  match jsSplit (· = ' ') s with
  | [_, dmy] =>
      match jsSplit (· = '/') dmy with
      | [d, m, y] =>
          match jsParseInt d, jsParseInt m, jsParseInt y with
          | some d, some m, some y =>
              some (daysFromCivil y m d * msPerDay + 3 * msPerHour)
          | _, _, _ => none
      | _ => none
  | _ => none

/-- The witness scenario: one day in March 2024, a later `now`, a
header-only sheet, and an API oracle answering only for that day. -/
def c1Day : Int := daysFromCivil 2024 3 15 * msPerDay + 12 * msPerHour
def c1Now : Int := daysFromCivil 2024 6 1 * msPerDay
def c1Api : Int → Option (List ApiEntry) :=
  fun t => if t = c1Day then some spreadExample else none
def c1Sheet : List (List CellV) := [[CellV.str "Fecha"]]

/-- Witness for the idempotent-upsert theorem at the concrete
scenario: the second of two identical single-day runs reports one
in-place update and no append and keeps the row count. -/
theorem single_day_upsert_idempotent_witness :
    (updateHistoricalValues witnessLabelParse id c1Api c1Now "X"
        (updateHistoricalValues witnessLabelParse id c1Api c1Now "X"
          c1Sheet c1Day c1Day).sheet c1Day c1Day).outcome = .ok (1, 0)
    ∧ (updateHistoricalValues witnessLabelParse id c1Api c1Now "X"
        (updateHistoricalValues witnessLabelParse id c1Api c1Now "X"
          c1Sheet c1Day c1Day).sheet c1Day c1Day).sheet.length
      = (updateHistoricalValues witnessLabelParse id c1Api c1Now "X"
          c1Sheet c1Day c1Day).sheet.length := by
  have h := single_day_upsert_idempotent witnessLabelParse id
    (fun l => List.Perm.refl l) c1Api c1Now c1Day "X" spreadExample
    (by simp [c1Api]) c1Sheet (by decide) (by decide) (by decide)
    (by decide) (by decide)
  exact ⟨h.1, h.2.1⟩
